import Mathlib

/-!
Formal model of the "apply" worker (job-application automation service).

The definitions below are shallow embeddings of the TypeScript source:
  - apps/web/lib/jobs/normalizeUrl.ts        (URL normalization)
  - services/worker/src/rateLimiter.ts       (per-domain rate limiter)
  - services/worker/src/runner/errorHandler.ts (error classification, retry)
  - services/worker/src/runner/applyJob.ts   (orchestrator and task runner)
  - the Greenhouse and Lever site adapters   (apply / pre-submit gate / outcome)

Browser and database effects are modeled by explicit state passing and by
environment records carrying the outcomes of DOM probes; machine numbers are
modeled as Nat / Rat; JavaScript exceptions are modeled with Except / Option.
URL parsing models the host-provided WHATWG URL parser, restricted to
hierarchical scheme://host URLs without percent-encoding normalization; the
hostname is modeled without a port component.
-/

namespace ApplyModel

/-! ### String helpers (char-list based so that the kernel can evaluate them) -/

/-- Lowercase a string; models JavaScript String.prototype.toLowerCase on ASCII. -/
def lowerStr (s : String) : String := String.mk (s.toList.map Char.toLower)

/-- Trim leading and trailing whitespace from a char list. -/
def trimChars (cs : List Char) : List Char :=
  ((cs.dropWhile Char.isWhitespace).reverse.dropWhile Char.isWhitespace).reverse

/-- Trim a string; models JavaScript String.prototype.trim. -/
def trimStr (s : String) : String := String.mk (trimChars s.toList)

/-- Substring containment on char lists; models String.prototype.includes. -/
def listContainsSub (hay need : List Char) : Bool :=
  (List.range (hay.length + 1)).any (fun i => need.isPrefixOf (hay.drop i))

/-- Substring containment on strings; models String.prototype.includes. -/
def strContainsSub (hay need : String) : Bool := listContainsSub hay.toList need.toList

/-! ### Char.toLower facts used for URL normalization -/

theorem toNat_ofNatAux (n : Nat) (h : n.isValidChar) : (Char.ofNatAux n h).toNat = n := rfl

theorem char_toLower_idem (c : Char) : c.toLower.toLower = c.toLower := by
  unfold Char.toLower
  by_cases h : c.toNat ≥ 65 ∧ c.toNat ≤ 90
  · rw [if_pos h]
    have hv : (c.toNat + 32).isValidChar := Or.inl (by omega)
    have ht : (Char.ofNat (c.toNat + 32)).toNat = c.toNat + 32 := by
      unfold Char.ofNat
      rw [dif_pos hv]
      exact toNat_ofNatAux _ hv
    rw [if_neg]
    rw [ht]
    omega
  · rw [if_neg h, if_neg h]

/-- Char.toLower can only produce a character outside the lowercase-letter range
if its input was that very character. -/
theorem char_toLower_eq_nonletter (c d : Char) (hd : ¬ (d.toNat ≥ 97 ∧ d.toNat ≤ 122)) :
    c.toLower = d → c = d := by
  unfold Char.toLower
  by_cases h : c.toNat ≥ 65 ∧ c.toNat ≤ 90
  · rw [if_pos h]
    intro heq
    exfalso
    have hv : (c.toNat + 32).isValidChar := Or.inl (by omega)
    have ht : (Char.ofNat (c.toNat + 32)).toNat = c.toNat + 32 := by
      unfold Char.ofNat
      rw [dif_pos hv]
      exact toNat_ofNatAux _ hv
    apply hd
    rw [← heq, ht]
    omega
  · rw [if_neg h]
    exact id

/-! ### URL model

A simplified WHATWG-style URL object: scheme://host path ?query #fragment.
The parser and printer below model the host-environment URL class used by
normalizeUrl.ts, restricted to hierarchical URLs. -/

structure UrlObj where
  scheme : List Char
  host : List Char
  path : List Char
  query : List (List Char × List Char)
  frag : Option (List Char)
deriving Repr, DecidableEq

/-- Split a char list on a separator char (the separator is dropped). -/
def splitChar (c : Char) : List Char → List (List Char)
  | [] => [[]]
  | x :: xs =>
    match splitChar c xs with
    | [] => [[x]]
    | h :: t => if x = c then [] :: h :: t else (x :: h) :: t

/-- Parse one name=value pair: name is everything before the first =. -/
def parsePair (p : List Char) : List Char × List Char :=
  (p.takeWhile (fun c => c ≠ '='),
    match p.dropWhile (fun c => c ≠ '=') with
    | _ :: v => v
    | [] => [])

/-- Parse a query string (without the leading question mark). -/
def parseQuery (cs : List Char) : List (List Char × List Char) :=
  if cs = [] then [] else (splitChar '&' cs).map parsePair

/-- Chars that end the host component. -/
def hpDelim (c : Char) : Bool := c = '/' || c = '?' || c = '#'

/-- Chars that end the path component. -/
def pqDelim (c : Char) : Bool := c = '?' || c = '#'

/-- Parse the part after the host: path, then query and fragment. -/
def parseAfterQuery (scheme host path qrest : List Char) : Option UrlObj :=
  match qrest.dropWhile (fun c => c ≠ '#') with
  | '#' :: f =>
    some ⟨scheme, host, path, parseQuery (qrest.takeWhile (fun c => c ≠ '#')), some f⟩
  | _ => some ⟨scheme, host, path, parseQuery (qrest.takeWhile (fun c => c ≠ '#')), none⟩

/-- Parse the part after the scheme and host delimiters. -/
def parseAfterHost (scheme host r2 : List Char) : Option UrlObj :=
  match r2.dropWhile (fun c => !(pqDelim c)) with
  | [] => some ⟨scheme, host, r2.takeWhile (fun c => !(pqDelim c)), [], none⟩
  | '?' :: qrest => parseAfterQuery scheme host (r2.takeWhile (fun c => !(pqDelim c))) qrest
  | '#' :: f => some ⟨scheme, host, r2.takeWhile (fun c => !(pqDelim c)), [], some f⟩
  | _ => none

/-- Parse a URL string into a UrlObj; `none` models the URL constructor throwing. -/
def parseUrl (s : String) : Option UrlObj :=
  match s.toList.dropWhile (fun c => c ≠ ':') with
  | ':' :: '/' :: '/' :: rest =>
    parseAfterHost (s.toList.takeWhile (fun c => c ≠ ':'))
      (rest.takeWhile (fun c => !(hpDelim c)))
      (rest.dropWhile (fun c => !(hpDelim c)))
  | _ => none

/-- Print one name=value pair. -/
def pairPrint (p : List Char × List Char) : List Char := p.1 ++ '=' :: p.2

/-- Join parts with ampersands. -/
def joinAmp : List (List Char) → List Char
  | [] => []
  | [p] => p
  | p :: ps => p ++ '&' :: joinAmp ps

/-- Print the query component, with a leading question mark when nonempty. -/
def printQuery (q : List (List Char × List Char)) : List Char :=
  match q with
  | [] => []
  | _ => '?' :: joinAmp (q.map pairPrint)

/-- Print the fragment component. -/
def printFrag : Option (List Char) → List Char
  | none => []
  | some f => '#' :: f

theorem printQuery_nil : printQuery [] = [] := rfl

theorem printQuery_cons (p : List Char × List Char) (ps : List (List Char × List Char)) :
    printQuery (p :: ps) = '?' :: joinAmp ((p :: ps).map pairPrint) := rfl

theorem printFrag_none : printFrag none = [] := rfl

theorem printFrag_some (f : List Char) : printFrag (some f) = '#' :: f := rfl

/-- Serialize a UrlObj; models URL.prototype.toString. -/
def printUrl (u : UrlObj) : String :=
  String.mk (u.scheme ++ (':' :: '/' :: '/' ::
    (u.host ++ (u.path ++ (printQuery u.query ++ printFrag u.frag)))))

/-! ### Well-formedness of URL objects (the shape of serialized URLs) -/

def noColon (cs : List Char) : Bool := cs.all (fun c => c ≠ ':')

def hostOk (cs : List Char) : Bool := cs.all (fun c => !(hpDelim c))

def pathOk (cs : List Char) : Bool :=
  (decide (cs = []) || cs.head? == some '/') && cs.all (fun c => !(pqDelim c))

def nameOk (cs : List Char) : Bool := cs.all (fun c => c ≠ '&' && c ≠ '=' && c ≠ '#')

def valOk (cs : List Char) : Bool := cs.all (fun c => c ≠ '&' && c ≠ '#')

def urlWf (u : UrlObj) : Bool :=
  noColon u.scheme && hostOk u.host && pathOk u.path &&
    u.query.all (fun p => nameOk p.1 && valOk p.2)

/-! ### Parse/print round trip -/

theorem takeWhile_append_of {α : Type} {p : α → Bool} {u w : List α}
    (h : ∀ x ∈ u, p x = true) (h2 : ∀ z, w.head? = some z → p z = false) :
    (u ++ w).takeWhile p = u ∧ (u ++ w).dropWhile p = w := by
  induction u with
  | nil =>
    cases w with
    | nil => simp
    | cons z zs =>
      have hz := h2 z rfl
      simp [List.takeWhile_cons, List.dropWhile_cons, hz]
  | cons x l ih =>
    have hx : p x = true := h x (by simp)
    have ih2 := ih (fun a ha => h a (by simp [ha]))
    simp [List.takeWhile_cons, List.dropWhile_cons, hx, ih2.1, ih2.2]

theorem splitChar_ne_nil (c : Char) (cs : List Char) : splitChar c cs ≠ [] := by
  induction cs with
  | nil => simp [splitChar]
  | cons x xs ih =>
    simp only [splitChar]
    split
    · simp
    · split <;> simp

theorem splitChar_no_sep (c : Char) (cs : List Char) (h : ∀ a ∈ cs, a ≠ c) :
    splitChar c cs = [cs] := by
  induction cs with
  | nil => rfl
  | cons x xs ih =>
    have hx : x ≠ c := h x (by simp)
    have ihx := ih (fun a ha => h a (by simp [ha]))
    simp only [splitChar, ihx]
    simp [hx]

theorem splitChar_cons_sep (c : Char) (ys : List Char) :
    splitChar c (c :: ys) = [] :: splitChar c ys := by
  simp only [splitChar]
  split
  next hm => exact absurd hm (splitChar_ne_nil c ys)
  next h t hm => simp [hm]

theorem splitChar_append_sep (c : Char) (xs ys : List Char) (h : ∀ a ∈ xs, a ≠ c) :
    splitChar c (xs ++ c :: ys) = xs :: splitChar c ys := by
  induction xs with
  | nil => simpa using splitChar_cons_sep c ys
  | cons x xt ih =>
    have hx : x ≠ c := h x (by simp)
    have ihx := ih (fun a ha => h a (by simp [ha]))
    show splitChar c (x :: (xt ++ c :: ys)) = (x :: xt) :: splitChar c ys
    simp only [splitChar, ihx]
    simp [hx]

theorem joinAmp_split (parts : List (List Char)) (hne : parts ≠ [])
    (h : ∀ p ∈ parts, ∀ a ∈ p, a ≠ '&') :
    splitChar '&' (joinAmp parts) = parts := by
  induction parts with
  | nil => exact absurd rfl hne
  | cons p ps ih =>
    cases ps with
    | nil =>
      show splitChar '&' p = [p]
      exact splitChar_no_sep '&' p (h p (by simp))
    | cons q qs =>
      show splitChar '&' (p ++ '&' :: joinAmp (q :: qs)) = p :: (q :: qs)
      rw [splitChar_append_sep '&' p _ (h p (by simp))]
      rw [ih (by simp) (fun r hr a ha => h r (by simp [hr]) a ha)]

theorem mem_joinAmp (parts : List (List Char)) (a : Char) (ha : a ∈ joinAmp parts) :
    a = '&' ∨ ∃ p ∈ parts, a ∈ p := by
  induction parts with
  | nil => simp [joinAmp] at ha
  | cons p ps ih =>
    cases ps with
    | nil =>
      right
      exact ⟨p, by simp, ha⟩
    | cons q qs =>
      have ha2 : a ∈ p ++ '&' :: joinAmp (q :: qs) := ha
      rcases List.mem_append.mp ha2 with hp | hrest
      · right; exact ⟨p, by simp, hp⟩
      · rcases List.mem_cons.mp hrest with h1 | h2
        · left; exact h1
        · rcases ih h2 with h3 | ⟨r, hr, har⟩
          · left; exact h3
          · right; exact ⟨r, by simp [List.mem_cons.mp hr], har⟩

theorem parsePair_pairPrint (p : List Char × List Char)
    (h : ∀ a ∈ p.1, a ≠ '=') : parsePair (pairPrint p) = p := by
  unfold parsePair pairPrint
  have hsplit := takeWhile_append_of (p := fun c => decide (c ≠ '='))
    (u := p.1) (w := '=' :: p.2)
    (fun x hx => by simpa using h x hx) (fun z hz => by
      simp at hz
      simp [← hz])
  rw [hsplit.1, hsplit.2]

theorem joinAmp_ne_nil (parts : List (List Char)) (hne : parts ≠ [])
    (h : ∀ p ∈ parts, p ≠ []) : joinAmp parts ≠ [] := by
  cases parts with
  | nil => exact absurd rfl hne
  | cons p ps =>
    cases ps with
    | nil => exact h p (by simp)
    | cons q qs =>
      show p ++ '&' :: joinAmp (q :: qs) ≠ []
      simp

theorem nameOk_elim {cs : List Char} (h : nameOk cs = true) {a : Char} (ha : a ∈ cs) :
    a ≠ '&' ∧ a ≠ '=' ∧ a ≠ '#' := by
  unfold nameOk at h
  have := List.all_eq_true.mp h a ha
  simp only [Bool.and_eq_true, decide_eq_true_eq] at this
  exact ⟨this.1.1, this.1.2, this.2⟩

theorem valOk_elim {cs : List Char} (h : valOk cs = true) {a : Char} (ha : a ∈ cs) :
    a ≠ '&' ∧ a ≠ '#' := by
  unfold valOk at h
  have := List.all_eq_true.mp h a ha
  simp only [Bool.and_eq_true, decide_eq_true_eq] at this
  exact this

theorem parseQuery_printed (q : List (List Char × List Char))
    (h : ∀ p ∈ q, nameOk p.1 = true ∧ valOk p.2 = true) :
    parseQuery (joinAmp (q.map pairPrint)) = q := by
  cases hq : q with
  | nil => rfl
  | cons p0 ps =>
    rw [← hq]
    have hq_ne : q.map pairPrint ≠ [] := by simp [hq]
    have hpne : ∀ r ∈ q.map pairPrint, r ≠ [] := by
      intro r hr
      rcases List.mem_map.mp hr with ⟨pp, _, hpp⟩
      rw [← hpp]
      unfold pairPrint
      intro habs
      have h2 : ('=' :: pp.2) ≠ [] := by simp
      exact h2 (List.append_eq_nil.mp habs).2
    have hnoamp : ∀ r ∈ q.map pairPrint, ∀ a ∈ r, a ≠ '&' := by
      intro r hr a ha
      rcases List.mem_map.mp hr with ⟨pp, hpp_mem, hpp⟩
      rw [← hpp] at ha
      unfold pairPrint at ha
      rcases List.mem_append.mp ha with h1 | h2
      · exact (nameOk_elim (h pp hpp_mem).1 h1).1
      · rcases List.mem_cons.mp h2 with h3 | h4
        · rw [h3]; decide
        · exact (valOk_elim (h pp hpp_mem).2 h4).1
    unfold parseQuery
    rw [if_neg (joinAmp_ne_nil _ hq_ne hpne)]
    rw [joinAmp_split _ hq_ne hnoamp]
    rw [List.map_map]
    conv_rhs => rw [← List.map_id q]
    apply List.map_congr_left
    intro pp hpp_mem
    show parsePair (pairPrint pp) = pp
    apply parsePair_pairPrint
    intro a ha
    exact (nameOk_elim (h pp hpp_mem).1 ha).2.1

theorem string_toList_mk (cs : List Char) : (String.mk cs).toList = cs := rfl

theorem parseUrl_eq (s : String) (scheme rest : List Char)
    (h1 : s.toList.takeWhile (fun c => c ≠ ':') = scheme)
    (h2 : s.toList.dropWhile (fun c => c ≠ ':') = ':' :: '/' :: '/' :: rest) :
    parseUrl s = parseAfterHost scheme (rest.takeWhile (fun c => !(hpDelim c)))
      (rest.dropWhile (fun c => !(hpDelim c))) := by
  unfold parseUrl
  rw [h1, h2]
  rfl

theorem parseAfterHost_eq_nil (scheme host r2 path : List Char)
    (h1 : r2.takeWhile (fun c => !(pqDelim c)) = path)
    (h2 : r2.dropWhile (fun c => !(pqDelim c)) = []) :
    parseAfterHost scheme host r2 = some ⟨scheme, host, path, [], none⟩ := by
  unfold parseAfterHost
  rw [h1, h2]

theorem parseAfterHost_eq_query (scheme host r2 path qrest : List Char)
    (h1 : r2.takeWhile (fun c => !(pqDelim c)) = path)
    (h2 : r2.dropWhile (fun c => !(pqDelim c)) = '?' :: qrest) :
    parseAfterHost scheme host r2 = parseAfterQuery scheme host path qrest := by
  unfold parseAfterHost
  rw [h1, h2]
  rfl

theorem parseAfterHost_eq_frag (scheme host r2 path f : List Char)
    (h1 : r2.takeWhile (fun c => !(pqDelim c)) = path)
    (h2 : r2.dropWhile (fun c => !(pqDelim c)) = '#' :: f) :
    parseAfterHost scheme host r2 = some ⟨scheme, host, path, [], some f⟩ := by
  unfold parseAfterHost
  rw [h1, h2]
  rfl

theorem parseAfterQuery_eq_frag (scheme host path qrest qs f : List Char)
    (h1 : qrest.takeWhile (fun c => c ≠ '#') = qs)
    (h2 : qrest.dropWhile (fun c => c ≠ '#') = '#' :: f) :
    parseAfterQuery scheme host path qrest = some ⟨scheme, host, path, parseQuery qs, some f⟩ := by
  unfold parseAfterQuery
  rw [h1, h2]
  rfl

theorem parseAfterQuery_eq_nofrag (scheme host path qrest qs : List Char)
    (h1 : qrest.takeWhile (fun c => c ≠ '#') = qs)
    (h2 : qrest.dropWhile (fun c => c ≠ '#') = []) :
    parseAfterQuery scheme host path qrest = some ⟨scheme, host, path, parseQuery qs, none⟩ := by
  unfold parseAfterQuery
  rw [h1, h2]

/-- Round trip: parsing a printed well-formed URL object recovers it exactly. -/
theorem parse_printUrl (u : UrlObj) (h : urlWf u = true) : parseUrl (printUrl u) = some u := by
  obtain ⟨scheme, host, path, query, frag⟩ := u
  unfold urlWf at h
  simp only [Bool.and_eq_true] at h
  obtain ⟨⟨⟨hsch, hhost⟩, hpath⟩, hquery⟩ := h
  have htl : (printUrl ⟨scheme, host, path, query, frag⟩).toList
      = scheme ++ (':' :: '/' :: '/' :: (host ++ (path ++ (printQuery query ++ printFrag frag))))
      := rfl
  -- scheme step
  have hs1 := takeWhile_append_of (p := fun c => decide (c ≠ ':'))
    (u := scheme) (w := ':' :: '/' :: '/' :: (host ++ (path ++ (printQuery query ++ printFrag frag))))
    (fun x hx => by
      unfold noColon at hsch
      have := List.all_eq_true.mp hsch x hx
      simpa using this)
    (fun z hz => by
      simp at hz
      simp [← hz])
  -- host step
  have hys_head : ∀ z, (path ++ (printQuery query ++ printFrag frag)).head? = some z →
      (!(hpDelim z)) = false := by
    intro z hz
    cases hpc : path with
    | cons c cs =>
      unfold pathOk at hpath
      simp only [Bool.and_eq_true] at hpath
      have hhead := hpath.1
      rw [hpc] at hhead
      simp at hhead
      rw [hpc] at hz
      simp at hz
      rw [← hz, hhead]
      decide
    | nil =>
      rw [hpc] at hz
      simp at hz
      cases hqc : query with
      | cons p ps =>
        rw [hqc] at hz
        unfold printQuery at hz
        simp at hz
        rw [← hz]
        decide
      | nil =>
        rw [hqc] at hz
        unfold printQuery at hz
        simp at hz
        cases hfc : frag with
        | none => rw [hfc] at hz; unfold printFrag at hz; simp at hz
        | some f =>
          rw [hfc] at hz
          unfold printFrag at hz
          simp at hz
          rw [← hz]
          decide
  have hh1 := takeWhile_append_of (p := fun c => !(hpDelim c))
    (u := host) (w := path ++ (printQuery query ++ printFrag frag))
    (fun x hx => by
      unfold hostOk at hhost
      exact List.all_eq_true.mp hhost x hx)
    hys_head
  -- path step
  have hpys_head : ∀ z, (printQuery query ++ printFrag frag).head? = some z →
      (!(pqDelim z)) = false := by
    intro z hz
    cases hqc : query with
    | cons p ps =>
      rw [hqc] at hz
      unfold printQuery at hz
      simp at hz
      rw [← hz]
      decide
    | nil =>
      rw [hqc] at hz
      unfold printQuery at hz
      simp at hz
      cases hfc : frag with
      | none => rw [hfc] at hz; unfold printFrag at hz; simp at hz
      | some f =>
        rw [hfc] at hz
        unfold printFrag at hz
        simp at hz
        rw [← hz]
        decide
  have hp1 := takeWhile_append_of (p := fun c => !(pqDelim c))
    (u := path) (w := printQuery query ++ printFrag frag)
    (fun x hx => by
      unfold pathOk at hpath
      simp only [Bool.and_eq_true] at hpath
      exact List.all_eq_true.mp hpath.2 x hx)
    hpys_head
  rw [parseUrl_eq _ scheme (host ++ (path ++ (printQuery query ++ printFrag frag)))
    (by rw [htl]; exact hs1.1) (by rw [htl]; exact hs1.2)]
  rw [hh1.1, hh1.2]
  -- query and fragment step
  cases hqc : query with
  | nil =>
    subst hqc
    cases hfc : frag with
    | none =>
      subst hfc
      simp only [printQuery_nil, printFrag_none, List.append_nil] at hp1 ⊢
      exact parseAfterHost_eq_nil scheme host path path hp1.1 hp1.2
    | some f =>
      subst hfc
      simp only [printQuery_nil, printFrag_some, List.nil_append] at hp1 ⊢
      exact parseAfterHost_eq_frag scheme host _ path f hp1.1 hp1.2
  | cons p0 ps =>
    subst hqc
    have hqch : ∀ a ∈ joinAmp ((p0 :: ps).map pairPrint), (decide (a ≠ '#')) = true := by
      intro a ha
      rcases mem_joinAmp _ a ha with h1 | ⟨r, hr, har⟩
      · simp [h1]
      · rcases List.mem_map.mp hr with ⟨pp, hpp_mem, hpp⟩
        rw [← hpp] at har
        unfold pairPrint at har
        have hq2 := List.all_eq_true.mp hquery pp hpp_mem
        simp only [Bool.and_eq_true] at hq2
        rcases List.mem_append.mp har with hh | hh
        · simpa using (nameOk_elim hq2.1 hh).2.2
        · rcases List.mem_cons.mp hh with h3 | h4
          · rw [h3]; decide
          · simpa using (valOk_elim hq2.2 h4).2
    have hqwf : ∀ p ∈ (p0 :: ps), nameOk p.1 = true ∧ valOk p.2 = true := by
      intro pp hpp_mem
      have hq2 := List.all_eq_true.mp hquery pp hpp_mem
      simp only [Bool.and_eq_true] at hq2
      exact hq2
    cases hfc : frag with
    | none =>
      subst hfc
      simp only [printQuery_cons, printFrag_none, List.append_nil] at hp1 ⊢
      rw [parseAfterHost_eq_query scheme host _ path (joinAmp ((p0 :: ps).map pairPrint))
        hp1.1 hp1.2]
      have hq1 := takeWhile_append_of (p := fun c => decide (c ≠ '#'))
        (u := joinAmp ((p0 :: ps).map pairPrint)) (w := ([] : List Char))
        hqch (fun z hz => by simp at hz)
      simp only [List.append_nil] at hq1
      rw [parseAfterQuery_eq_nofrag scheme host path _ _ hq1.1 hq1.2]
      rw [parseQuery_printed (p0 :: ps) hqwf]
    | some f =>
      subst hfc
      simp only [printQuery_cons, printFrag_some] at hp1 ⊢
      rw [parseAfterHost_eq_query scheme host _ path
        (joinAmp ((p0 :: ps).map pairPrint) ++ '#' :: f) hp1.1 hp1.2]
      have hq1 := takeWhile_append_of (p := fun c => decide (c ≠ '#'))
        (u := joinAmp ((p0 :: ps).map pairPrint)) (w := '#' :: f)
        hqch (fun z hz => by
          simp at hz
          simp [← hz])
      rw [parseAfterQuery_eq_frag scheme host path _ _ f hq1.1 hq1.2]
      rw [parseQuery_printed (p0 :: ps) hqwf]

/-! ### normalizeUrl (apps/web/lib/jobs/normalizeUrl.ts) -/

/-- Tracking query parameters stripped by normalizeUrl (TRACKING_PARAMS list,
normalizeUrl.ts lines 2-15). -/
def TRACKING_PARAMS : List (List Char) :=
  ["utm_source", "utm_medium", "utm_campaign", "utm_term", "utm_content",
   "ref", "referer", "source", "fbclid", "gclid", "mc_cid", "mc_eid"].map String.toList

/-- Condition under which normalizeUrl removes a trailing slash:
`parsed.pathname.length > 1 && parsed.pathname.endsWith('/')`. -/
def pathNeedsStrip (p : List Char) : Bool :=
  decide (p.length > 1) && p.getLast? == some '/'

/-- Remove one trailing slash (`pathname.slice(0, -1)`) when the condition holds. -/
def stripTrailingSlash (p : List Char) : List Char :=
  if pathNeedsStrip p = true then p.dropLast else p

/-- The object-level effect of normalizeUrl: lowercase protocol and host, delete
the tracking parameters, strip one trailing slash, clear the fragment. -/
def normObj (u : UrlObj) : UrlObj :=
  { scheme := u.scheme.map Char.toLower
    host := u.host.map Char.toLower
    path := stripTrailingSlash u.path
    query := u.query.filter (fun p => !(TRACKING_PARAMS.contains p.1))
    frag := none }

/-- normalizeUrl from normalizeUrl.ts lines 17-43: parse, normalize, serialize;
the catch branch returns the input unchanged when parsing fails. -/
def normalizeUrl (s : String) : String :=
  match parseUrl s with
  | none => s
  | some u => printUrl (normObj u)

theorem normalizeUrl_some {s : String} {u : UrlObj} (h : parseUrl s = some u) :
    normalizeUrl s = printUrl (normObj u) := by
  unfold normalizeUrl
  rw [h]

theorem normalizeUrl_none {s : String} (h : parseUrl s = none) : normalizeUrl s = s := by
  unfold normalizeUrl
  rw [h]

/-! ### Well-formedness is preserved by normalization -/

theorem map_toLower_noColon {cs : List Char} (h : noColon cs = true) :
    noColon (cs.map Char.toLower) = true := by
  unfold noColon at h ⊢
  rw [List.all_eq_true] at h ⊢
  intro c hc
  rcases List.mem_map.mp hc with ⟨a, ha, rfl⟩
  have h2 := h a ha
  simp only [decide_eq_true_eq] at h2 ⊢
  intro heq
  exact h2 (char_toLower_eq_nonletter a ':' (by decide) heq)

theorem toLower_hpDelim {a : Char} (h : hpDelim (Char.toLower a) = true) : hpDelim a = true := by
  unfold hpDelim at h ⊢
  simp only [Bool.or_eq_true, decide_eq_true_eq] at h ⊢
  rcases h with (h | h) | h
  · left; left; exact char_toLower_eq_nonletter a '/' (by decide) h
  · left; right; exact char_toLower_eq_nonletter a '?' (by decide) h
  · right; exact char_toLower_eq_nonletter a '#' (by decide) h

theorem map_toLower_hostOk {cs : List Char} (h : hostOk cs = true) :
    hostOk (cs.map Char.toLower) = true := by
  unfold hostOk at h ⊢
  rw [List.all_eq_true] at h ⊢
  intro c hc
  rcases List.mem_map.mp hc with ⟨a, ha, rfl⟩
  have h2 := h a ha
  rcases Bool.eq_false_or_eq_true (hpDelim a.toLower) with hd | hd
  · rw [toLower_hpDelim hd] at h2
    simp at h2
  · simp [hd]

theorem mem_dropLast {α : Type} {a : α} {l : List α} (h : a ∈ l.dropLast) : a ∈ l :=
  (List.dropLast_prefix l).subset h

theorem stripTrailingSlash_pathOk {p : List Char} (h : pathOk p = true) :
    pathOk (stripTrailingSlash p) = true := by
  unfold stripTrailingSlash
  split
  next hc =>
    unfold pathNeedsStrip at hc
    simp only [Bool.and_eq_true, decide_eq_true_eq] at hc
    match p, hc with
    | a :: b :: t, hc =>
      unfold pathOk at h ⊢
      simp only [Bool.and_eq_true] at h ⊢
      constructor
      · have hh := h.1
        simp only [Bool.or_eq_true] at hh ⊢
        right
        rcases hh with h1 | h2
        · simp at h1
        · rw [List.dropLast_cons₂]
          simpa using h2
      · rw [List.all_eq_true] at h ⊢
        intro c hcm
        exact h.2 c (mem_dropLast hcm)
  next => exact h

theorem normObj_wf {u : UrlObj} (h : urlWf u = true) : urlWf (normObj u) = true := by
  unfold urlWf at h ⊢
  simp only [Bool.and_eq_true] at h ⊢
  obtain ⟨⟨⟨hsch, hhost⟩, hpath⟩, hquery⟩ := h
  refine ⟨⟨⟨map_toLower_noColon hsch, map_toLower_hostOk hhost⟩,
    stripTrailingSlash_pathOk hpath⟩, ?_⟩
  rw [List.all_eq_true] at hquery ⊢
  intro p hp
  exact hquery p (List.mem_filter.mp hp).1

/-! ### Normalization is idempotent at the object level, away from double slashes -/

theorem stripTrailingSlash_noop {p : List Char} (h : pathNeedsStrip p = false) :
    stripTrailingSlash p = p := by
  simp [stripTrailingSlash, h]

theorem normObj_idem (u : UrlObj) (hcond : pathNeedsStrip (stripTrailingSlash u.path) = false) :
    normObj (normObj u) = normObj u := by
  unfold normObj
  simp only [UrlObj.mk.injEq, and_true]
  refine ⟨?_, ?_, ?_, ?_⟩
  · rw [List.map_map]
    exact List.map_congr_left (fun a _ => char_toLower_idem a)
  · rw [List.map_map]
    exact List.map_congr_left (fun a _ => char_toLower_idem a)
  · exact stripTrailingSlash_noop hcond
  · rw [List.filter_filter]
    exact List.filter_congr (fun x _ => Bool.and_self _)

/-- C7 counterexample: normalizeUrl strips only one trailing slash per call, so on
a URL whose path ends in a double slash the function is not idempotent: the first
pass yields path /a/ and the second pass strips again, yielding /a. -/
theorem normalizeUrl_not_idempotent :
    normalizeUrl (normalizeUrl "https://x.com/a//") ≠ normalizeUrl "https://x.com/a//" := by
  decide

/-- C7 (amended): normalizeUrl is idempotent on unparseable inputs and on every
well-formed parseable URL whose pathname does not still end with a slash after one
trailing slash has been removed (equivalently, whose pathname does not end in a
double slash); and on every well-formed parseable URL the normalized output drops
exactly the listed tracking parameters, keeps the remaining query parameters in
their original order, and keeps the (slash-stripped) path. -/
theorem normalizeUrl_props :
    (∀ s, parseUrl s = none → normalizeUrl (normalizeUrl s) = normalizeUrl s)
    ∧ (∀ s u, parseUrl s = some u → urlWf u = true →
        parseUrl (normalizeUrl s) = some (normObj u)
        ∧ (normObj u).query = u.query.filter (fun p => !(TRACKING_PARAMS.contains p.1))
        ∧ (∀ p ∈ (normObj u).query, TRACKING_PARAMS.contains p.1 = false)
        ∧ (normObj u).path = stripTrailingSlash u.path
        ∧ (pathNeedsStrip (stripTrailingSlash u.path) = false →
            normalizeUrl (normalizeUrl s) = normalizeUrl s)) := by
  constructor
  · intro s h
    have h1 : normalizeUrl s = s := normalizeUrl_none h
    rw [h1, h1]
  · intro s u hp hwf
    have hns : normalizeUrl s = printUrl (normObj u) := normalizeUrl_some hp
    have hwf2 : urlWf (normObj u) = true := normObj_wf hwf
    have hpp : parseUrl (normalizeUrl s) = some (normObj u) := by
      rw [hns]
      exact parse_printUrl _ hwf2
    refine ⟨hpp, rfl, ?_, rfl, ?_⟩
    · intro p hmem
      have hm2 : p ∈ u.query.filter (fun p => !(TRACKING_PARAMS.contains p.1)) := hmem
      have h2 := (List.mem_filter.mp hm2).2
      simpa using h2
    · intro hcond
      have hn2 : normalizeUrl (normalizeUrl s) = printUrl (normObj (normObj u)) :=
        normalizeUrl_some hpp
      rw [hn2, normObj_idem u hcond, hns]

/-- Witness for the amended C7 theorem at a concrete URL carrying one tracking
parameter and one ordinary parameter. -/
theorem normalizeUrl_props_witness :
    normalizeUrl (normalizeUrl "https://Ex.com/jobs?utm_source=a&id=5")
      = normalizeUrl "https://Ex.com/jobs?utm_source=a&id=5" :=
  ((normalizeUrl_props.2 "https://Ex.com/jobs?utm_source=a&id=5"
    ⟨"https".toList, "Ex.com".toList, "/jobs".toList,
      [("utm_source".toList, "a".toList), ("id".toList, "5".toList)], none⟩
    (by decide) (by decide)).2.2.2.2) (by decide)


/-! ### RateLimiter (services/worker/src/rateLimiter.ts) -/

/-- Extract the registrable domain, i.e. the last two labels of the hostname
(getDomain, rateLimiter.ts lines 32-44): split the hostname on dots and keep
the last two parts; parse failure yields "unknown". -/
def getDomain (url : String) : String :=
  match parseUrl url with
  | none => "unknown"
  | some u =>
    let parts := splitChar '.' u.host
    if parts.length ≥ 2 then
      String.mk (List.intercalate ['.'] (parts.drop (parts.length - 2)))
    else String.mk u.host

structure RateLimitEntry where
  domain : String
  lastRequestAt : Nat
  requestCount : Nat
deriving Repr, DecidableEq

/-- Built-in per-domain limits in milliseconds (rateLimiter.ts lines 19-25). -/
def initialDomainLimits : List (String × Nat) :=
  [("greenhouse.io", 5000), ("lever.co", 5000), ("workday.com", 10000),
   ("icims.com", 8000), ("smartrecruiters.com", 6000)]

/-- The limiter's in-memory state: the entries map, the domain-limit map and the
configured default delay. -/
structure RateLimiterState where
  entries : List (String × RateLimitEntry)
  domainLimits : List (String × Nat)
  defaultDelayMs : Nat
deriving Repr, DecidableEq

/-- getLimitForDomain, rateLimiter.ts lines 47-49. -/
def getLimitForDomain (st : RateLimiterState) (domain : String) : Nat :=
  (st.domainLimits.lookup domain).getD st.defaultDelayMs

/-- The sleep duration computed by waitForSlot for a given domain at time `now`. -/
def slotWait (st : RateLimiterState) (domain : String) (now : Nat) : Nat :=
  match st.entries.lookup domain with
  | some e =>
    if now - e.lastRequestAt < getLimitForDomain st domain
    then getLimitForDomain st domain - (now - e.lastRequestAt) else 0
  | none => 0

/-- The request count recorded so far for a domain. -/
def prevCount (st : RateLimiterState) (domain : String) : Nat :=
  match st.entries.lookup domain with
  | some e => e.requestCount
  | none => 0

/-- One waitForSlot call at wall-clock time `now` (waitForSlot, rateLimiter.ts
lines 52-74).  Returns the new state, the recorded last-request time (the value
of Date.now() taken after the sleep, with the sleep modeled as taking exactly the
requested duration) and the sleep duration.  The map update is modeled by
prepending the fresh entry, which shadows any older entry under lookup. -/
def waitForSlot (st : RateLimiterState) (url : String) (now : Nat) :
    RateLimiterState × Nat × Nat :=
  (⟨(getDomain url,
      ⟨getDomain url, now + slotWait st (getDomain url) now,
        prevCount st (getDomain url) + 1⟩) :: st.entries,
    st.domainLimits, st.defaultDelayMs⟩,
   now + slotWait st (getDomain url) now,
   slotWait st (getDomain url) now)

theorem lookup_cons_self {β : Type} (k : String) (v : β) (l : List (String × β)) :
    ((k, v) :: l).lookup k = some v := by
  simp [List.lookup]

theorem lookup_cons_other {β : Type} (k k2 : String) (v : β) (l : List (String × β))
    (h : k2 ≠ k) : ((k, v) :: l).lookup k2 = l.lookup k2 := by
  have hb : (k2 == k) = false := beq_eq_false_iff_ne.mpr h
  simp [List.lookup, hb]

theorem slotWait_cons_self (entries : List (String × RateLimitEntry))
    (dl : List (String × Nat)) (dd : Nat) (d : String) (r1 cnt t2 : Nat) :
    slotWait ⟨(d, ⟨d, r1, cnt⟩) :: entries, dl, dd⟩ d t2
      = if t2 - r1 < getLimitForDomain ⟨entries, dl, dd⟩ d
        then getLimitForDomain ⟨entries, dl, dd⟩ d - (t2 - r1) else 0 := by
  unfold slotWait
  rw [lookup_cons_self]
  rfl

theorem slotWait_cons_other (entries : List (String × RateLimitEntry))
    (dl : List (String × Nat)) (dd : Nat) (d d2 : String) (e : RateLimitEntry) (t2 : Nat)
    (h : d2 ≠ d) :
    slotWait ⟨(d, e) :: entries, dl, dd⟩ d2 t2 = slotWait ⟨entries, dl, dd⟩ d2 t2 := by
  unfold slotWait
  rw [lookup_cons_other _ _ _ _ h]
  rfl

/-- C8: two sequential waitForSlot calls on URLs with the same registrable domain
leave recorded request times at least the domain limit apart (whenever the second
call starts no earlier than the first call's recorded time, which sequential
execution guarantees); and a call for one domain does not change what a later
call for a different domain computes (neither its sleep nor its recorded time). -/
theorem rateLimiter_gap_and_isolation :
    (∀ (st : RateLimiterState) (url1 url2 : String) (t1 t2 : Nat),
      getDomain url1 = getDomain url2 →
      (waitForSlot st url1 t1).2.1 ≤ t2 →
      getLimitForDomain st (getDomain url2) ≤
        (waitForSlot (waitForSlot st url1 t1).1 url2 t2).2.1
          - (waitForSlot st url1 t1).2.1)
    ∧ (∀ (st : RateLimiterState) (url1 url2 : String) (t1 t2 : Nat),
      getDomain url1 ≠ getDomain url2 →
      (waitForSlot (waitForSlot st url1 t1).1 url2 t2).2
        = (waitForSlot st url2 t2).2) := by
  constructor
  · intro st url1 url2 t1 t2 hdom hle
    obtain ⟨entries, dl, dd⟩ := st
    simp only [waitForSlot] at hle ⊢
    rw [← hdom]
    rw [slotWait_cons_self]
    split
    next hc => omega
    next hc => omega
  · intro st url1 url2 t1 t2 hne
    obtain ⟨entries, dl, dd⟩ := st
    simp only [waitForSlot]
    rw [slotWait_cons_other entries dl dd (getDomain url1) (getDomain url2) _ t2 (Ne.symm hne)]

/-- Witness for C8 at a concrete Greenhouse URL: two calls at times 0 and 3000
end up 5000 ms apart (the greenhouse.io limit), and a Lever call afterwards is
unaffected by the Greenhouse entry. -/
theorem rateLimiter_gap_witness :
    (getLimitForDomain ⟨[], initialDomainLimits, 2000⟩
        (getDomain "https://boards.greenhouse.io/acme/jobs/1") ≤
      (waitForSlot
          (waitForSlot ⟨[], initialDomainLimits, 2000⟩
            "https://boards.greenhouse.io/acme/jobs/1" 0).1
          "https://boards.greenhouse.io/acme/jobs/1" 3000).2.1
        - (waitForSlot ⟨[], initialDomainLimits, 2000⟩
            "https://boards.greenhouse.io/acme/jobs/1" 0).2.1)
    ∧ (waitForSlot
        (waitForSlot ⟨[], initialDomainLimits, 2000⟩
          "https://boards.greenhouse.io/acme/jobs/1" 0).1
        "https://jobs.lever.co/acme/1" 3000).2
      = (waitForSlot ⟨[], initialDomainLimits, 2000⟩ "https://jobs.lever.co/acme/1" 3000).2 :=
  ⟨rateLimiter_gap_and_isolation.1 ⟨[], initialDomainLimits, 2000⟩
      "https://boards.greenhouse.io/acme/jobs/1" "https://boards.greenhouse.io/acme/jobs/1"
      0 3000 rfl (by decide),
    rateLimiter_gap_and_isolation.2 ⟨[], initialDomainLimits, 2000⟩
      "https://boards.greenhouse.io/acme/jobs/1" "https://jobs.lever.co/acme/1"
      0 3000 (by decide)⟩

/-! ### Error classification and retry (services/worker/src/runner/errorHandler.ts) -/

inductive ErrorCategory
  | NETWORK | TIMEOUT | ELEMENT_NOT_FOUND | VALIDATION | CAPTCHA
  | RATE_LIMITED | ALREADY_APPLIED | SESSION_EXPIRED | UNKNOWN
deriving Repr, DecidableEq

structure ClassifiedError where
  category : ErrorCategory
  code : String
  message : String
  retryable : Bool
  maxRetries : Nat
deriving Repr, DecidableEq

/-- A thrown JavaScript value as classifyError distinguishes them: a Playwright
TimeoutError, a generic Error carrying a message, or a non-Error value. -/
inductive JsError
  | timeoutErr (msg : String)
  | jsErr (msg : String)
  | nonError
deriving Repr, DecidableEq

/-- classifyError, errorHandler.ts lines 33-111: instance tests followed by
lower-cased message substring tests, in source order. -/
def classifyError (e : JsError) : ClassifiedError :=
  match e with
  | .timeoutErr _ =>
    ⟨.TIMEOUT, "TIMEOUT", "Operation timed out", true, 2⟩
  | .jsErr m =>
    if strContainsSub (lowerStr m) "net::" || strContainsSub (lowerStr m) "network"
        || strContainsSub (lowerStr m) "connection refused"
        || strContainsSub (lowerStr m) "econnrefused" then
      ⟨.NETWORK, "NETWORK_ERROR", "Network connection failed", true, 3⟩
    else if strContainsSub (lowerStr m) "waiting for selector"
        || strContainsSub (lowerStr m) "element not found"
        || strContainsSub (lowerStr m) "no element matching" then
      ⟨.ELEMENT_NOT_FOUND, "ELEMENT_NOT_FOUND", "Required page element not found", true, 1⟩
    else if strContainsSub (lowerStr m) "session" || strContainsSub (lowerStr m) "login"
        || strContainsSub (lowerStr m) "unauthorized" then
      ⟨.SESSION_EXPIRED, "SESSION_EXPIRED", "Session expired or authentication required",
        false, 0⟩
    else
      ⟨.UNKNOWN, "UNKNOWN_ERROR", m, false, 0⟩
  | .nonError =>
    ⟨.UNKNOWN, "UNKNOWN_ERROR", "An unknown error occurred", false, 0⟩

/-- Retry configuration (errorHandler.ts lines 201-206); delays are JavaScript
numbers, modeled as rationals. -/
structure RetryConfig where
  maxAttempts : Nat
  baseDelayMs : Rat
  maxDelayMs : Rat
  backoffMultiplier : Rat
deriving Repr, DecidableEq

/-- DEFAULT_RETRY_CONFIG, errorHandler.ts lines 208-213. -/
def DEFAULT_RETRY_CONFIG : RetryConfig := ⟨3, 1000, 10000, 2⟩

/-- Observable behavior of one withRetry run: the outcome (`Except.error none`
models the fallback `new Error('All retry attempts failed')` thrown when the loop
never ran), how many times the operation was invoked, and the sleep durations in
order. -/
structure RetryTrace (α : Type) where
  result : Except (Option JsError) α
  calls : Nat
  sleeps : List Rat

/-- The backoff delay slept after a failed attempt:
`Math.min(baseDelayMs * backoffMultiplier ^ (attempt - 1), maxDelayMs)`
(errorHandler.ts lines 246-249). -/
def delayAt (cfg : RetryConfig) (attempt : Nat) : Rat :=
  min (cfg.baseDelayMs * cfg.backoffMultiplier ^ (attempt - 1)) cfg.maxDelayMs

/-- The loop body of withRetry (errorHandler.ts lines 227-257); `op j` is the
outcome of the j-th invocation of the operation, `remaining` the number of
attempts left, `lastErr` the last caught error. -/
def withRetryGo {α : Type} (op : Nat → Except JsError α) (cfg : RetryConfig) :
    Nat → Nat → Option JsError → RetryTrace α
  | _, 0, lastErr => ⟨Except.error lastErr, 0, []⟩
  | attempt, remaining + 1, _ =>
    match op attempt with
    | Except.ok v => ⟨Except.ok v, 1, []⟩
    | Except.error e =>
      if (classifyError e).retryable = false then ⟨Except.error (some e), 1, []⟩
      else if attempt > (classifyError e).maxRetries then ⟨Except.error (some e), 1, []⟩
      else
        ⟨(withRetryGo op cfg (attempt + 1) remaining (some e)).result,
          (withRetryGo op cfg (attempt + 1) remaining (some e)).calls + 1,
          delayAt cfg attempt :: (withRetryGo op cfg (attempt + 1) remaining (some e)).sleeps⟩

/-- withRetry, errorHandler.ts lines 216-260. -/
def withRetry {α : Type} (op : Nat → Except JsError α) (cfg : RetryConfig) : RetryTrace α :=
  withRetryGo op cfg 1 cfg.maxAttempts none

/-- Attempt j fails with an error the retry loop is willing to retry at attempt j. -/
def failsRetryably {α : Type} (op : Nat → Except JsError α) (j : Nat) : Prop :=
  ∃ e, op j = Except.error e ∧ (classifyError e).retryable = true
    ∧ j ≤ (classifyError e).maxRetries

theorem delays_cons (cfg : RetryConfig) (a m : Nat) :
    delayAt cfg a :: (List.range m).map (fun i => delayAt cfg (a + 1 + i))
      = (List.range (m + 1)).map (fun i => delayAt cfg (a + i)) := by
  induction m with
  | zero => simp [List.range_succ]
  | succ n ih =>
    have hg : a + 1 + n = a + (n + 1) := by omega
    rw [List.range_succ, List.map_append, show n + 1 + 1 = (n + 1) + 1 from rfl,
      List.range_succ, List.map_append, ← List.cons_append, ih]
    simp only [List.map_cons, List.map_nil]
    rw [hg]

theorem withRetryGo_calls_le {α : Type} (op : Nat → Except JsError α) (cfg : RetryConfig) :
    ∀ (r a : Nat) (le : Option JsError), (withRetryGo op cfg a r le).calls ≤ r := by
  intro r
  induction r with
  | zero => intro a le; simp [withRetryGo]
  | succ n ih =>
    intro a le
    unfold withRetryGo
    match hop : op a with
    | Except.ok v => simp
    | Except.error e =>
      simp only
      split
      · simp
      · split
        · simp
        · simp only
          have := ih (a + 1) (some e)
          omega

theorem withRetryGo_ok {α : Type} (op : Nat → Except JsError α) (cfg : RetryConfig)
    (k : Nat) (v : α) :
    ∀ (r a : Nat) (le : Option JsError), a ≤ k → k < a + r →
    (∀ j, a ≤ j → j < k → failsRetryably op j) →
    op k = Except.ok v →
    withRetryGo op cfg a r le
      = ⟨Except.ok v, k - a + 1, (List.range (k - a)).map (fun i => delayAt cfg (a + i))⟩ := by
  intro r
  induction r with
  | zero => intro a le h1 h2; omega
  | succ n ih =>
    intro a le h1 h2 hfails hok
    by_cases hak : k = a
    · subst hak
      unfold withRetryGo
      rw [hok]
      simp
    · have hlt : a < k := by omega
      obtain ⟨e, he, hretry, hceil⟩ := hfails a (le_refl a) hlt
      unfold withRetryGo
      rw [he]
      simp only
      rw [if_neg (by simp [hretry]), if_neg (by omega)]
      rw [ih (a + 1) (some e) (by omega) (by omega)
        (fun j hj1 hj2 => hfails j (by omega) hj2) hok]
      simp only
      have hka : k - a = (k - (a + 1)) + 1 := by omega
      rw [hka, ← delays_cons]

theorem withRetryGo_stop {α : Type} (op : Nat → Except JsError α) (cfg : RetryConfig)
    (k : Nat) (e : JsError) :
    ∀ (r a : Nat) (le : Option JsError), a ≤ k → k < a + r →
    (∀ j, a ≤ j → j < k → failsRetryably op j) →
    op k = Except.error e →
    ((classifyError e).retryable = false ∨ k > (classifyError e).maxRetries) →
    withRetryGo op cfg a r le
      = ⟨Except.error (some e), k - a + 1,
          (List.range (k - a)).map (fun i => delayAt cfg (a + i))⟩ := by
  intro r
  induction r with
  | zero => intro a le h1 h2; omega
  | succ n ih =>
    intro a le h1 h2 hfails herr hstop
    by_cases hak : k = a
    · subst hak
      unfold withRetryGo
      rw [herr]
      simp only
      by_cases hr : (classifyError e).retryable = false
      · rw [if_pos hr]
        simp
      · rw [if_neg hr]
        have hs : k > (classifyError e).maxRetries := by
          rcases hstop with h | h
          · exact absurd h hr
          · exact h
        rw [if_pos hs]
        simp
    · have hlt : a < k := by omega
      obtain ⟨e2, he2, hretry, hceil⟩ := hfails a (le_refl a) hlt
      unfold withRetryGo
      rw [he2]
      simp only
      rw [if_neg (by simp [hretry]), if_neg (by omega)]
      rw [ih (a + 1) (some e2) (by omega) (by omega)
        (fun j hj1 hj2 => hfails j (by omega) hj2) herr hstop]
      simp only
      have hka : k - a = (k - (a + 1)) + 1 := by omega
      rw [hka, ← delays_cons]

theorem withRetryGo_exhaust {α : Type} (op : Nat → Except JsError α) (cfg : RetryConfig) :
    ∀ (r a : Nat) (le : Option JsError) (e : JsError), 1 ≤ r →
    (∀ j, a ≤ j → j < a + r → failsRetryably op j) →
    op (a + r - 1) = Except.error e →
    withRetryGo op cfg a r le
      = ⟨Except.error (some e), r, (List.range r).map (fun i => delayAt cfg (a + i))⟩ := by
  intro r
  induction r with
  | zero => intro a le e h1; omega
  | succ n ih =>
    intro a le e _ hfails herr
    by_cases hn : n = 0
    · subst hn
      obtain ⟨e2, he2, hretry, hceil⟩ := hfails a (le_refl a) (by omega)
      have hea : a + 1 - 1 = a := by omega
      rw [hea] at herr
      have hee : e2 = e := by
        rw [herr] at he2
        injection he2 with h
        exact h.symm
      subst hee
      unfold withRetryGo
      rw [herr]
      simp only
      rw [if_neg (by simp [hretry]), if_neg (by omega)]
      simp [withRetryGo, List.range_succ]
    · have hn1 : 1 ≤ n := by omega
      obtain ⟨e2, he2, hretry, hceil⟩ := hfails a (le_refl a) (by omega)
      unfold withRetryGo
      rw [he2]
      simp only
      rw [if_neg (by simp [hretry]), if_neg (by omega)]
      rw [ih (a + 1) (some e2) e hn1
        (fun j hj1 hj2 => hfails j (by omega) (by omega))
        (by rw [show a + 1 + n - 1 = a + (n + 1) - 1 by omega]; exact herr)]
      simp only
      rw [← delays_cons]

/-- Operation that fails twice with a timeout and then succeeds. -/
def cexRetryOp : Nat → Except JsError Nat :=
  fun n => if n ≤ 2 then Except.error (JsError.timeoutErr "t") else Except.ok 42

/-- A retry configuration with backoff multiplier 0 (the source accepts any
Partial<RetryConfig> override). -/
def cexRetryCfg : RetryConfig := ⟨3, 1000, 10000, 0⟩

theorem cexRetryOp_fails : ∀ j, 1 ≤ j → j < 3 → failsRetryably cexRetryOp j := by
  intro j hj1 hj2
  interval_cases j
  · exact ⟨JsError.timeoutErr "t", rfl, rfl, by decide⟩
  · exact ⟨JsError.timeoutErr "t", rfl, rfl, by decide⟩

/-- C4 counterexample: with backoff multiplier 0 and an operation failing twice
with retryable timeouts before succeeding, withRetry sleeps 1000 ms then 0 ms:
the delays are strictly decreasing, refuting the claimed "non-decreasing
(capped) delays" for arbitrary retry configurations. -/
theorem withRetry_decreasing_delays :
    (withRetry cexRetryOp cexRetryCfg).result = Except.ok 42
    ∧ (withRetry cexRetryOp cexRetryCfg).sleeps = [(1000 : Rat), 0]
    ∧ ¬ List.Sorted (fun a b : Rat => a ≤ b) (withRetry cexRetryOp cexRetryCfg).sleeps := by
  have hmain : withRetry cexRetryOp cexRetryCfg
      = ⟨Except.ok 42, 3, (List.range 2).map (fun i => delayAt cexRetryCfg (1 + i))⟩ := by
    unfold withRetry
    exact withRetryGo_ok cexRetryOp cexRetryCfg 3 42 cexRetryCfg.maxAttempts 1 none
      (by decide) (by decide) cexRetryOp_fails rfl
  have hsleeps : (withRetry cexRetryOp cexRetryCfg).sleeps = [(1000 : Rat), 0] := by
    rw [hmain]
    show (List.range 2).map (fun i => delayAt cexRetryCfg (1 + i)) = [(1000 : Rat), 0]
    rw [show (2 : Nat) = 1 + 1 from rfl, List.range_succ, List.range_succ, List.range_zero]
    simp only [List.nil_append, List.cons_append, List.map_cons, List.map_nil]
    norm_num [delayAt, cexRetryCfg, min_def]
  refine ⟨by rw [hmain], hsleeps, ?_⟩
  rw [hsleeps]
  intro hsort
  rw [List.sorted_cons] at hsort
  have h0 := hsort.1 0 (by simp)
  norm_num at h0

/-- C4 (amended): withRetry invokes the operation at most maxAttempts times;
if the first k-1 attempts fail retryably within their category ceilings and the
k-th succeeds, it returns the success after exactly k calls and k-1 backoff
sleeps of min(base*multiplier^(attempt-1), maxDelay); if the k-th attempt fails
non-retryably or beyond its category ceiling it re-throws that error immediately
after the same k-1 sleeps; exhausting all attempts re-throws the last error; and
in the fail-twice-then-succeed scenario with category ceilings of at least 2 and
maxAttempts at least 3 the call succeeds after exactly two sleeps, which are
non-decreasing provided the backoff multiplier is at least 1 and the base delay
nonnegative (both hold in the default configuration). -/
theorem withRetry_props {α : Type} :
    (∀ (op : Nat → Except JsError α) (cfg : RetryConfig),
      (withRetry op cfg).calls ≤ cfg.maxAttempts)
    ∧ (∀ (op : Nat → Except JsError α) (cfg : RetryConfig) (k : Nat) (v : α),
        1 ≤ k → k ≤ cfg.maxAttempts →
        (∀ j, 1 ≤ j → j < k → failsRetryably op j) →
        op k = Except.ok v →
        withRetry op cfg
          = ⟨Except.ok v, k, (List.range (k - 1)).map (fun i => delayAt cfg (1 + i))⟩)
    ∧ (∀ (op : Nat → Except JsError α) (cfg : RetryConfig) (k : Nat) (e : JsError),
        1 ≤ k → k ≤ cfg.maxAttempts →
        (∀ j, 1 ≤ j → j < k → failsRetryably op j) →
        op k = Except.error e →
        ((classifyError e).retryable = false ∨ k > (classifyError e).maxRetries) →
        withRetry op cfg
          = ⟨Except.error (some e), k,
              (List.range (k - 1)).map (fun i => delayAt cfg (1 + i))⟩)
    ∧ (∀ (op : Nat → Except JsError α) (cfg : RetryConfig) (e : JsError),
        1 ≤ cfg.maxAttempts →
        (∀ j, 1 ≤ j → j ≤ cfg.maxAttempts → failsRetryably op j) →
        op cfg.maxAttempts = Except.error e →
        withRetry op cfg
          = ⟨Except.error (some e), cfg.maxAttempts,
              (List.range cfg.maxAttempts).map (fun i => delayAt cfg (1 + i))⟩)
    ∧ (∀ (op : Nat → Except JsError α) (cfg : RetryConfig) (v : α) (e1 e2 : JsError),
        op 1 = Except.error e1 → op 2 = Except.error e2 → op 3 = Except.ok v →
        (classifyError e1).retryable = true → (classifyError e2).retryable = true →
        2 ≤ (classifyError e1).maxRetries → 2 ≤ (classifyError e2).maxRetries →
        3 ≤ cfg.maxAttempts → 1 ≤ cfg.backoffMultiplier → 0 ≤ cfg.baseDelayMs →
        (withRetry op cfg).result = Except.ok v
        ∧ (withRetry op cfg).sleeps = [delayAt cfg 1, delayAt cfg 2]
        ∧ delayAt cfg 1 ≤ delayAt cfg 2) := by
  refine ⟨?_, ?_, ?_, ?_, ?_⟩
  · intro op cfg
    exact withRetryGo_calls_le op cfg cfg.maxAttempts 1 none
  · intro op cfg k v h1 h2 hfails hok
    unfold withRetry
    rw [withRetryGo_ok op cfg k v cfg.maxAttempts 1 none h1 (by omega) hfails hok,
      show k - 1 + 1 = k by omega]
  · intro op cfg k e h1 h2 hfails herr hstop
    unfold withRetry
    rw [withRetryGo_stop op cfg k e cfg.maxAttempts 1 none h1 (by omega) hfails herr hstop,
      show k - 1 + 1 = k by omega]
  · intro op cfg e h1 hfails herr
    unfold withRetry
    rw [withRetryGo_exhaust op cfg cfg.maxAttempts 1 none e h1
      (fun j hj1 hj2 => hfails j hj1 (by omega))
      (by rw [show 1 + cfg.maxAttempts - 1 = cfg.maxAttempts by omega]; exact herr)]
  · intro op cfg v e1 e2 hop1 hop2 hop3 hr1 hr2 hm1 hm2 hma hmult hbase
    have hfails : ∀ j, 1 ≤ j → j < 3 → failsRetryably op j := by
      intro j hj1 hj2
      interval_cases j
      · exact ⟨e1, hop1, hr1, by omega⟩
      · exact ⟨e2, hop2, hr2, by omega⟩
    have hmain : withRetry op cfg
        = ⟨Except.ok v, 3, (List.range 2).map (fun i => delayAt cfg (1 + i))⟩ := by
      unfold withRetry
      exact withRetryGo_ok op cfg 3 v cfg.maxAttempts 1 none (by omega) (by omega) hfails hop3
    rw [hmain]
    refine ⟨rfl, ?_, ?_⟩
    · show (List.range 2).map (fun i => delayAt cfg (1 + i)) = [delayAt cfg 1, delayAt cfg 2]
      rw [show (2 : Nat) = 1 + 1 from rfl, List.range_succ, List.range_succ, List.range_zero]
      simp
    · unfold delayAt
      apply min_le_min _ (le_refl _)
      calc cfg.baseDelayMs * cfg.backoffMultiplier ^ (1 - 1)
          = cfg.baseDelayMs * 1 := by norm_num
        _ ≤ cfg.baseDelayMs * cfg.backoffMultiplier ^ (2 - 1) := by
            apply mul_le_mul_of_nonneg_left _ hbase
            simpa using hmult

/-- Witness for the amended C4 theorem: the fail-twice-then-succeed scenario with
the default configuration returns the success value after sleeping twice with
non-decreasing delays. -/
theorem withRetry_props_witness :
    (withRetry cexRetryOp DEFAULT_RETRY_CONFIG).result = Except.ok 42
    ∧ (withRetry cexRetryOp DEFAULT_RETRY_CONFIG).sleeps
        = [delayAt DEFAULT_RETRY_CONFIG 1, delayAt DEFAULT_RETRY_CONFIG 2]
    ∧ delayAt DEFAULT_RETRY_CONFIG 1 ≤ delayAt DEFAULT_RETRY_CONFIG 2 :=
  withRetry_props.2.2.2.2 cexRetryOp DEFAULT_RETRY_CONFIG 42
    (JsError.timeoutErr "t") (JsError.timeoutErr "t")
    rfl rfl rfl rfl rfl
    (by decide) (by decide) (by decide)
    (by norm_num [DEFAULT_RETRY_CONFIG]) (by norm_num [DEFAULT_RETRY_CONFIG])

/-! ### ApplyResult data model (runner/adapters/base.ts) -/

inductive ApplyStatus
  | succeeded | failed | blocked | dry_run_complete | needs_input
deriving Repr, DecidableEq

inductive FieldType
  | select | text | textarea | radio | checkbox
deriving Repr, DecidableEq

/-- RequiredInput, base.ts: a field awaiting a user answer. -/
structure RequiredInput where
  fieldName : String
  fieldType : FieldType
  options : Option (List String)
  required : Bool
deriving Repr, DecidableEq

/-- ApplyResult, base.ts: outcome of an application attempt. -/
structure ApplyResult where
  status : ApplyStatus
  fieldsFilledCount : Nat
  fieldsFailed : List String
  screenshots : List String
  errorCode : Option String
  errorMessage : Option String
  confirmationMessage : Option String
  requiredInputs : Option (List RequiredInput)
deriving Repr, DecidableEq

/-- The applicant profile passed to adapters (ProfileData, base.ts). -/
structure ProfileData where
  full_name : Option String
  email : Option String
  phone : Option String
  location_city : Option String
  location_state : Option String
  linkedin_url : Option String
  github_url : Option String
  work_authorization : Option String
deriving Repr, DecidableEq

/-! ### Post-submit outcome detection (GreenhouseAdapter.detectOutcome and
LeverAdapter.detectOutcome) -/

/-- The page state detectOutcome inspects after submission: the body text, the
text contents of the matched validation-error elements (null when textContent
returns null), and the current URL. -/
structure OutcomePage where
  bodyText : String
  errorTexts : List (Option String)
  url : String
deriving Repr, DecidableEq

def ghSuccessIndicators : List String :=
  ["thank you for applying", "application received", "successfully submitted",
   "application submitted", "thanks for applying", "we received your application",
   "you have applied", "your application has been submitted"]

def ghAlreadyAppliedIndicators : List String :=
  ["already applied", "duplicate application", "previously applied"]

def leverSuccessIndicators : List String :=
  ["thank you for applying", "application received", "successfully submitted",
   "application submitted", "thanks for applying", "your application has been received",
   "we got your application"]

def leverAlreadyAppliedIndicators : List String :=
  ["already applied", "duplicate application", "you have applied"]

/-- The nonempty trimmed texts among the first three error elements
(`errorElements.slice(0, 3)` with `if (text?.trim()) errorTexts.push(text.trim())`). -/
def nonEmptyErrorTexts (ts : List (Option String)) : List String :=
  (ts.take 3).filterMap (fun t? =>
    match t? with
    | none => none
    | some t => if trimStr t = "" then none else some (trimStr t))

def ghSuccessHit (p : OutcomePage) : Bool :=
  ghSuccessIndicators.any (fun s => strContainsSub (lowerStr p.bodyText) s)

def ghAlreadyHit (p : OutcomePage) : Bool :=
  ghAlreadyAppliedIndicators.any (fun s => strContainsSub (lowerStr p.bodyText) s)

def ghValidationHit (p : OutcomePage) : Bool :=
  decide (0 < p.errorTexts.length) && decide (0 < (nonEmptyErrorTexts p.errorTexts).length)

def ghCaptchaHit (p : OutcomePage) : Bool :=
  strContainsSub (lowerStr p.bodyText) "captcha"
    || strContainsSub (lowerStr p.bodyText) "verify you are human"

def leverSuccessHit (p : OutcomePage) : Bool :=
  leverSuccessIndicators.any (fun s => strContainsSub (lowerStr p.bodyText) s)

def leverAlreadyHit (p : OutcomePage) : Bool :=
  leverAlreadyAppliedIndicators.any (fun s => strContainsSub (lowerStr p.bodyText) s)

def leverValidationHit (p : OutcomePage) : Bool :=
  decide (0 < p.errorTexts.length) && decide (0 < (nonEmptyErrorTexts p.errorTexts).length)

def leverCaptchaHit (p : OutcomePage) : Bool :=
  strContainsSub (lowerStr p.bodyText) "captcha"
    || strContainsSub (lowerStr p.bodyText) "verify you are human"
    || strContainsSub (lowerStr p.bodyText) "recaptcha"

def leverUrlHit (p : OutcomePage) : Bool :=
  strContainsSub p.url "/thanks" || strContainsSub p.url "/confirmation"
    || strContainsSub p.url "/applied"

/-- GreenhouseAdapter.detectOutcome, greenhouse.ts lines 856-945: success
indicators, already-applied indicators, validation errors (first three nonempty
texts), CAPTCHA phrases, then the documented assume-success default. -/
def ghDetectOutcome (p : OutcomePage) (cnt : Nat) (ff ss : List String) : ApplyResult :=
  if ghSuccessHit p then
    ⟨.succeeded, cnt, ff, ss, none, none, some "Application submitted successfully", none⟩
  else if ghAlreadyHit p then
    ⟨.blocked, cnt, ff, ss, some "ALREADY_APPLIED",
      some "You have already applied to this position", none, none⟩
  else if ghValidationHit p then
    ⟨.failed, cnt, ff, ss, some "VALIDATION_ERROR",
      some ("Form validation failed: "
        ++ String.intercalate "; " (nonEmptyErrorTexts p.errorTexts)), none, none⟩
  else if ghCaptchaHit p then
    ⟨.blocked, cnt, ff, ss, some "CAPTCHA_DETECTED",
      some "CAPTCHA or human verification required", none, none⟩
  else
    ⟨.succeeded, cnt, ff, ss, none, none, some "Application submitted", none⟩

/-- LeverAdapter.detectOutcome, index.ts lines 746-846: like Greenhouse but with
Lever phrase lists plus a confirmation-style URL check before the default. -/
def leverDetectOutcome (p : OutcomePage) (cnt : Nat) (ff ss : List String) : ApplyResult :=
  if leverSuccessHit p then
    ⟨.succeeded, cnt, ff, ss, none, none, some "Application submitted successfully", none⟩
  else if leverAlreadyHit p then
    ⟨.blocked, cnt, ff, ss, some "ALREADY_APPLIED",
      some "You have already applied to this position", none, none⟩
  else if leverValidationHit p then
    ⟨.failed, cnt, ff, ss, some "VALIDATION_ERROR",
      some ("Form validation failed: "
        ++ String.intercalate "; " (nonEmptyErrorTexts p.errorTexts)), none, none⟩
  else if leverCaptchaHit p then
    ⟨.blocked, cnt, ff, ss, some "CAPTCHA_DETECTED",
      some "CAPTCHA or human verification required", none, none⟩
  else if leverUrlHit p then
    ⟨.succeeded, cnt, ff, ss, none, none,
      some "Application submitted (redirected to confirmation)", none⟩
  else
    ⟨.succeeded, cnt, ff, ss, none, none, some "Application submitted", none⟩

/-- Modelled from the claim's ordered outcome policy: the first matching check
decides the status and error code, with succeeded as the final default. -/
def specOutcomePolicy (succHit alreadyHit valHit capHit urlHit : Bool) :
    ApplyStatus × Option String :=
  if succHit then (.succeeded, none)
  else if alreadyHit then (.blocked, some "ALREADY_APPLIED")
  else if valHit then (.failed, some "VALIDATION_ERROR")
  else if capHit then (.blocked, some "CAPTCHA_DETECTED")
  else if urlHit then (.succeeded, none)
  else (.succeeded, none)

/-- C6: both adapters' detectOutcome agree, on status and error code, with the
ordered policy success -> already-applied -> validation -> CAPTCHA -> confirmation
URL -> default succeeded.  For Greenhouse the equation holds for an arbitrary
value of the URL-check flag because a URL hit and the default both yield
succeeded, so the absent URL check is unobservable at this level.  The
validation branch reports up to three concatenated nonempty error texts. -/
theorem detectOutcome_order (p : OutcomePage) (cnt : Nat) (ff ss : List String) (b : Bool) :
    (((ghDetectOutcome p cnt ff ss).status, (ghDetectOutcome p cnt ff ss).errorCode)
        = specOutcomePolicy (ghSuccessHit p) (ghAlreadyHit p) (ghValidationHit p)
            (ghCaptchaHit p) b)
    ∧ (((leverDetectOutcome p cnt ff ss).status, (leverDetectOutcome p cnt ff ss).errorCode)
        = specOutcomePolicy (leverSuccessHit p) (leverAlreadyHit p) (leverValidationHit p)
            (leverCaptchaHit p) (leverUrlHit p))
    ∧ (nonEmptyErrorTexts p.errorTexts).length ≤ 3
    ∧ ((ghDetectOutcome p cnt ff ss).errorCode = some "VALIDATION_ERROR" →
        (ghDetectOutcome p cnt ff ss).errorMessage
          = some ("Form validation failed: "
              ++ String.intercalate "; " (nonEmptyErrorTexts p.errorTexts)))
    ∧ ((leverDetectOutcome p cnt ff ss).errorCode = some "VALIDATION_ERROR" →
        (leverDetectOutcome p cnt ff ss).errorMessage
          = some ("Form validation failed: "
              ++ String.intercalate "; " (nonEmptyErrorTexts p.errorTexts))) := by
  refine ⟨?_, ?_, ?_, ?_, ?_⟩
  · unfold ghDetectOutcome specOutcomePolicy
    split_ifs <;> rfl
  · unfold leverDetectOutcome specOutcomePolicy
    split_ifs <;> rfl
  · calc (nonEmptyErrorTexts p.errorTexts).length
        ≤ (p.errorTexts.take 3).length := List.length_filterMap_le _ _
      _ ≤ 3 := by
          rw [List.length_take]
          omega
  · unfold ghDetectOutcome
    split_ifs <;> intro h <;> first
      | rfl
      | exact h
      | (injection h with h2; exact absurd h2 (by decide))
  · unfold leverDetectOutcome
    split_ifs <;> intro h <;> first
      | rfl
      | exact h
      | (injection h with h2; exact absurd h2 (by decide))

/-- Witness for C6 at a concrete post-submit page carrying one validation-error
element: the reported message is the trimmed error text. -/
theorem detectOutcome_order_witness :
    (ghDetectOutcome ⟨"some page", [some " Email is required "], "https://x.io/a"⟩
        0 [] []).errorMessage
      = some ("Form validation failed: "
          ++ String.intercalate "; " (nonEmptyErrorTexts [some " Email is required "])) :=
  (detectOutcome_order ⟨"some page", [some " Email is required "], "https://x.io/a"⟩
    0 [] [] true).2.2.2.1 (by decide)

/-! ### Greenhouse pre-submit gate (GreenhouseAdapter.detectUnfilledRequiredFields) -/

/-- One option of a native select: its value attribute (none when absent) and its
raw text content. -/
structure SelectOption where
  value : Option String
  text : String
deriving Repr, DecidableEq

/-- A native select element as the gate inspects it: current value, text of the
selected option, the required attribute, the text content of its enclosing
field/question container (empty when there is none), and its options. -/
structure SelectField where
  value : String
  selectedText : String
  required : Bool
  containerText : String
  options : List SelectOption
deriving Repr, DecidableEq

/-- A custom React-style dropdown: its text content (none when textContent is
null), its container text, and the texts of the option elements visible after
clicking it open. -/
structure CustomDropdown where
  text : Option String
  containerText : String
  openOptionTexts : List String
deriving Repr, DecidableEq

/-- A text input or textarea: its value, required attribute, container text and
whether it is a textarea. -/
structure TextInput where
  value : String
  required : Bool
  containerText : String
  isTextarea : Bool
deriving Repr, DecidableEq

/-- The form state that the pre-submit gate scans. -/
structure GhGatePage where
  selects : List SelectField
  customDropdowns : List CustomDropdown
  textInputs : List TextInput
deriving Repr, DecidableEq

/-- Everything before the first newline; models `.split('\n')[0]`. -/
def firstLine (cs : List Char) : List Char := cs.takeWhile (fun c => c ≠ '\n')

/-- Field-name extraction for native selects and text inputs:
`labelText.replace(/\*/g, '').trim().split('\n')[0].trim()`. -/
def extractFieldName (labelText : String) : String :=
  trimStr (String.mk (firstLine (trimChars (labelText.toList.filter (fun c => c ≠ '*')))))

/-- Fueled worker for removeCI (fuel bounds the scan length, making the
recursion structural and kernel-computable). -/
def removeCIFuel (needle : List Char) : Nat → List Char → List Char
  | 0, hay => hay
  | fuel + 1, hay =>
    match hay with
    | [] => []
    | c :: rest =>
      if needle ≠ [] ∧ (hay.take needle.length).map Char.toLower = needle.map Char.toLower then
        removeCIFuel needle fuel (hay.drop needle.length)
      else c :: removeCIFuel needle fuel rest

/-- Remove every left-to-right non-overlapping case-insensitive occurrence of
`needle`; models String.prototype.replace with a /gi regex of a literal. -/
def removeCI (needle hay : List Char) : List Char := removeCIFuel needle hay.length hay

/-- Whether a select is showing its placeholder:
`selectedValue === '' || selectedText.toLowerCase().includes('select')`. -/
def selectAtPlaceholder (sf : SelectField) : Bool :=
  sf.value = "" || strContainsSub (lowerStr sf.selectedText) "select"

/-- Whether the gate treats a select as required: the required attribute or an
asterisk in the container text. -/
def selectGateRequired (sf : SelectField) : Bool :=
  sf.required || strContainsSub sf.containerText "*"

/-- Which option texts are offered to the user: options with a truthy value
attribute and nonempty trimmed text that does not contain "select" and is not
the literal placeholder "--". -/
def ghOptionKeep (o : SelectOption) : Option String :=
  match o.value with
  | none => none
  | some v =>
    if v = "" then none
    else if trimStr o.text = "" then none
    else if strContainsSub (lowerStr (trimStr o.text)) "select" then none
    else if trimStr o.text = "--" then none
    else some (trimStr o.text)

/-- The RequiredInput entry produced for an unfilled required native select. -/
def gateEntryOfSelect (sf : SelectField) : RequiredInput :=
  ⟨extractFieldName sf.containerText, FieldType.select,
    some (sf.options.filterMap ghOptionKeep), true⟩

/-- Whether a custom dropdown still shows placeholder text
(`text && text.toLowerCase().includes('select')`). -/
def dropdownShowsSelect (cd : CustomDropdown) : Bool :=
  match cd.text with
  | some t => strContainsSub (lowerStr t) "select"
  | none => false

/-- The RequiredInput entry for an unfilled required custom dropdown; the field
name additionally removes "Select..." case-insensitively. -/
def gateEntryOfDropdown (cd : CustomDropdown) : RequiredInput :=
  ⟨trimStr (String.mk (firstLine (trimChars
      (removeCI "select...".toList (cd.containerText.toList.filter (fun c => c ≠ '*')))))),
    FieldType.select,
    some (cd.openOptionTexts.filterMap (fun t =>
      if trimStr t = "" then none else some (trimStr t))), true⟩

/-- The RequiredInput entry for an empty required text input (no options list). -/
def gateEntryOfTextInput (ti : TextInput) : RequiredInput :=
  ⟨extractFieldName ti.containerText,
    if ti.isTextarea then FieldType.textarea else FieldType.text, none, true⟩

/-- detectUnfilledRequiredFields, greenhouse.ts lines 711-836: required native
selects left at their placeholder, then required custom dropdowns still showing
"Select", then empty required text inputs, in DOM scan order. -/
def detectUnfilledRequiredFields (p : GhGatePage) : List RequiredInput :=
  (p.selects.filterMap (fun sf =>
      if selectAtPlaceholder sf && selectGateRequired sf then some (gateEntryOfSelect sf)
      else none))
    ++ (p.customDropdowns.filterMap (fun cd =>
      if dropdownShowsSelect cd && strContainsSub cd.containerText "*" then
        some (gateEntryOfDropdown cd)
      else none))
    ++ (p.textInputs.filterMap (fun ti =>
      if ti.value = "" && (ti.required || strContainsSub ti.containerText "*") then
        some (gateEntryOfTextInput ti)
      else none))

/-! ### GreenhouseAdapter.apply as a step machine -/

inductive GhStep
  | navigate
  | fillFields
  | uploadResumeStep
  | coverLetterStep
  | gateCheck
  | submitClick
  | outcomeCheck
deriving Repr, DecidableEq

/-- The environment of one GreenhouseAdapter.apply invocation: the outcome of
each DOM probe in the order the adapter makes them.  Sub-operations are modeled
as total, matching the adapter's own per-field try/catch that swallows
individual DOM errors and continues. -/
structure GhRunEnv where
  formFound : Bool
  fillCount : Nat
  fillFailed : List String
  resumeUploaded : Bool
  gatePage : GhGatePage
  submitFound : Bool
  outcomePage : OutcomePage
  formShot : Option String
  preShot : Option String
  postShot : Option String
deriving Repr, DecidableEq

/-- GreenhouseAdapter.apply, greenhouse.ts lines 93-200: navigate, fill, resume,
cover letter, dry-run return, the pre-submit gate, submit, outcome detection.
The second component lists the steps performed, in order. -/
def ghApply (dryRun : Bool) (env : GhRunEnv) : ApplyResult × List GhStep :=
  if ¬ env.formFound then
    (⟨.failed, 0, [], [], some "FORM_NOT_FOUND",
       some "Could not find or navigate to application form", none, none⟩,
     [GhStep.navigate])
  else if dryRun then
    (⟨.dry_run_complete, env.fillCount + (if env.resumeUploaded then 1 else 0),
       env.fillFailed, env.formShot.toList ++ env.preShot.toList, none, none,
       some "Dry run completed - form filled but not submitted", none⟩,
     [GhStep.navigate, GhStep.fillFields, GhStep.uploadResumeStep, GhStep.coverLetterStep])
  else if detectUnfilledRequiredFields env.gatePage ≠ [] then
    (⟨.needs_input, env.fillCount + (if env.resumeUploaded then 1 else 0),
       env.fillFailed, env.formShot.toList ++ env.preShot.toList, none,
       some ("Application requires answers to "
         ++ toString (detectUnfilledRequiredFields env.gatePage).length
         ++ " custom question(s)"),
       none, some (detectUnfilledRequiredFields env.gatePage)⟩,
     [GhStep.navigate, GhStep.fillFields, GhStep.uploadResumeStep, GhStep.coverLetterStep,
       GhStep.gateCheck])
  else if ¬ env.submitFound then
    (⟨.failed, env.fillCount + (if env.resumeUploaded then 1 else 0),
       env.fillFailed, env.formShot.toList ++ env.preShot.toList, some "SUBMIT_FAILED",
       some "Could not find or click submit button", none, none⟩,
     [GhStep.navigate, GhStep.fillFields, GhStep.uploadResumeStep, GhStep.coverLetterStep,
       GhStep.gateCheck])
  else
    (ghDetectOutcome env.outcomePage
       (env.fillCount + (if env.resumeUploaded then 1 else 0)) env.fillFailed
       (env.formShot.toList ++ env.preShot.toList ++ env.postShot.toList),
     [GhStep.navigate, GhStep.fillFields, GhStep.uploadResumeStep, GhStep.coverLetterStep,
       GhStep.gateCheck, GhStep.submitClick, GhStep.outcomeCheck])

/-! ### LeverAdapter.apply as a step machine (it has no pre-submit gate) -/

/-- The kinds of inputs a Lever custom-question container can hold. -/
inductive LevInput
  | selectInput (value : String) (required : Bool) (options : List SelectOption)
  | textInput (value : String)
deriving Repr, DecidableEq

/-- One Lever custom-question container: its label (none when no label element
matches), its input, and whether it holds a yes-radio for authorization
questions. -/
structure LevQuestion where
  labelText : Option String
  input : Option LevInput
  hasYesRadio : Bool
deriving Repr, DecidableEq

/-- JavaScript truthiness for nullable strings: null and the empty string are
falsy. -/
def jsStr (o : Option String) : Option String :=
  match o with
  | some s => if s = "" then none else some s
  | none => none

/-- `[city, state].filter(Boolean).join(', ') || null`. -/
def joinCityState (profile : ProfileData) : Option String :=
  match ([profile.location_city, profile.location_state].filterMap jsStr) with
  | [] => none
  | parts => some (String.intercalate ", " parts)

/-- matchLabelToValue, index.ts lines 636-656. -/
def leverMatchLabelToValue (label : String) (profile : ProfileData) : Option String :=
  if strContainsSub (lowerStr label) "linkedin" then profile.linkedin_url
  else if strContainsSub (lowerStr label) "github" then profile.github_url
  else if strContainsSub (lowerStr label) "website"
      || strContainsSub (lowerStr label) "portfolio" then profile.linkedin_url
  else if strContainsSub (lowerStr label) "city"
      || strContainsSub (lowerStr label) "location" then joinCityState profile
  else if strContainsSub (lowerStr label) "phone" then profile.phone
  else none

/-- selectMatchingOption, index.ts lines 659-691: an option whose text or value
contains the target (and whose value attribute is truthy), else for yes/true
targets an option whose text contains "yes". -/
def leverSelectMatches (opts : List SelectOption) (v : String) : Bool :=
  opts.any (fun o =>
    (strContainsSub (lowerStr o.text) (lowerStr v)
      || strContainsSub (lowerStr (o.value.getD "")) (lowerStr v))
    && o.value.getD "" ≠ "")
  || ((lowerStr v = "yes" || lowerStr v = "true")
      && opts.any (fun o => strContainsSub (lowerStr o.text) "yes" && o.value.getD "" ≠ ""))

/-- A non-select input with a nonempty current value is skipped
(`if (currentValue) continue`); selects are never skipped. -/
def levInputFilled (inp : LevInput) : Bool :=
  match inp with
  | LevInput.textInput v => v ≠ ""
  | LevInput.selectInput _ _ _ => false

/-- handleCustomQuestions, index.ts lines 580-633, for one container: resolve
the label, skip filled non-selects, try the label-to-profile match, then the
authorization yes-radio.  Returns how many fills this container contributed. -/
def leverHandleQuestion (profile : ProfileData) (q : LevQuestion) : Nat :=
  match q.labelText with
  | none => 0
  | some rawLabel =>
    if trimStr (lowerStr rawLabel) = "" then 0
    else
      match q.input with
      | none => 0
      | some inp =>
        if levInputFilled inp then 0
        else
          (match jsStr (leverMatchLabelToValue (trimStr (lowerStr rawLabel)) profile) with
            | some v =>
              match inp with
              | LevInput.selectInput _ _ opts => if leverSelectMatches opts v then 1 else 0
              | LevInput.textInput _ => 1
            | none => 0)
          + (if (strContainsSub (trimStr (lowerStr rawLabel)) "authorized to work"
                || strContainsSub (trimStr (lowerStr rawLabel)) "require sponsorship")
              && q.hasYesRadio && (jsStr profile.work_authorization).isSome then 1 else 0)

inductive LevStep
  | navigate
  | fillFields
  | uploadResumeStep
  | coverLetterStep
  | customQuestions
  | submitClick
  | outcomeCheck
deriving Repr, DecidableEq

/-- The environment of one LeverAdapter.apply invocation. -/
structure LevRunEnv where
  formFound : Bool
  fillCount : Nat
  fillFailed : List String
  resumeUploaded : Bool
  questions : List LevQuestion
  submitFound : Bool
  outcomePage : OutcomePage
  formShot : Option String
  preShot : Option String
  postShot : Option String
deriving Repr, DecidableEq

/-- LeverAdapter.apply, index.ts lines 421-512: navigate, fill, resume, cover
letter, custom questions, dry-run return, submit, outcome detection.  Unlike
the Greenhouse adapter there is no pre-submit required-field gate: after the
dry-run check the adapter goes straight to submitForm. -/
def leverApply (dryRun : Bool) (profile : ProfileData) (env : LevRunEnv) :
    ApplyResult × List LevStep :=
  if ¬ env.formFound then
    (⟨.failed, 0, [], [], some "FORM_NOT_FOUND",
       some "Could not find or navigate to application form", none, none⟩,
     [LevStep.navigate])
  else if dryRun then
    (⟨.dry_run_complete,
       env.fillCount + (if env.resumeUploaded then 1 else 0)
         + (env.questions.map (leverHandleQuestion profile)).sum,
       env.fillFailed, env.formShot.toList ++ env.preShot.toList, none, none,
       some "Dry run completed - form filled but not submitted", none⟩,
     [LevStep.navigate, LevStep.fillFields, LevStep.uploadResumeStep,
       LevStep.coverLetterStep, LevStep.customQuestions])
  else if ¬ env.submitFound then
    (⟨.failed,
       env.fillCount + (if env.resumeUploaded then 1 else 0)
         + (env.questions.map (leverHandleQuestion profile)).sum,
       env.fillFailed, env.formShot.toList ++ env.preShot.toList, some "SUBMIT_FAILED",
       some "Could not find or click submit button", none, none⟩,
     [LevStep.navigate, LevStep.fillFields, LevStep.uploadResumeStep,
       LevStep.coverLetterStep, LevStep.customQuestions])
  else
    (leverDetectOutcome env.outcomePage
       (env.fillCount + (if env.resumeUploaded then 1 else 0)
         + (env.questions.map (leverHandleQuestion profile)).sum)
       env.fillFailed
       (env.formShot.toList ++ env.preShot.toList ++ env.postShot.toList),
     [LevStep.navigate, LevStep.fillFields, LevStep.uploadResumeStep,
       LevStep.coverLetterStep, LevStep.customQuestions, LevStep.submitClick,
       LevStep.outcomeCheck])

/-! ### C1 and C10 -/

/-- A required select still at its placeholder, with one placeholder option and
two real options. -/
def sampleRequiredSelect : SelectField :=
  ⟨"", "Select...", true, "How did you hear about us? *",
    [⟨some "", "Select..."⟩, ⟨some "ref", "Referral"⟩, ⟨some "web", "Job board"⟩]⟩

def sampleGatePage : GhGatePage := ⟨[sampleRequiredSelect], [], []⟩

/-- A Greenhouse run environment whose form still has the unresolved select. -/
def ghGateEnv : GhRunEnv :=
  ⟨true, 3, [], true, sampleGatePage, true, ⟨"", [], ""⟩, none, none, none⟩

/-- An applicant profile with nothing filled in. -/
def emptyProfile : ProfileData := ⟨none, none, none, none, none, none, none, none⟩

/-- A Lever custom question holding the same unresolved required select. -/
def leverCexQuestion : LevQuestion :=
  ⟨some "How did you hear about us? *",
    some (LevInput.selectInput "" true [⟨some "", "Select..."⟩, ⟨some "ref", "Referral"⟩]),
    false⟩

/-- A Lever form with one required select at its placeholder after the fill
phase, a reachable submit button, and a neutral post-submit page. -/
def leverCexEnv : LevRunEnv :=
  ⟨true, 2, [], true, [leverCexQuestion], true,
    ⟨"some page text", [], "https://jobs.lever.co/acme/1/apply"⟩, none, none, none⟩

/-- C1 counterexample: the claim quantifies over every site adapter, but the
Lever adapter has no pre-submit gate.  On a form whose required select is still
at its placeholder, with dryRun off, LeverAdapter.apply clicks the submit
control and returns succeeded rather than needs_input. -/
theorem leverApply_no_gate :
    (leverApply false emptyProfile leverCexEnv).1.status = ApplyStatus.succeeded
    ∧ (leverApply false emptyProfile leverCexEnv).1.status ≠ ApplyStatus.needs_input
    ∧ (leverApply false emptyProfile leverCexEnv).1.requiredInputs = none
    ∧ LevStep.submitClick ∈ (leverApply false emptyProfile leverCexEnv).2 := by
  refine ⟨by decide, by decide, by decide, by decide⟩

/-- C1 (amended): for the Greenhouse adapter, whenever the pre-submit gate finds
unresolved required fields (dryRun off, form found), apply aborts with
needs_input carrying exactly the gate's entries - one per unresolved field -
and the submit control is never clicked; a required placeholder select
contributes an entry whose options are its option texts with placeholder-style
entries excluded; and a form whose only unresolved field is one such select
yields exactly one RequiredInput.  (The Lever adapter has no such gate: see the
counterexample theorem.) -/
theorem ghApply_needs_input_gate :
    (∀ (env : GhRunEnv), env.formFound = true →
      detectUnfilledRequiredFields env.gatePage ≠ [] →
      (ghApply false env).1.status = ApplyStatus.needs_input
      ∧ (ghApply false env).1.requiredInputs
          = some (detectUnfilledRequiredFields env.gatePage)
      ∧ GhStep.submitClick ∉ (ghApply false env).2)
    ∧ (∀ (sf : SelectField), selectAtPlaceholder sf = true → selectGateRequired sf = true →
        ∀ (p : GhGatePage), sf ∈ p.selects →
        (⟨extractFieldName sf.containerText, FieldType.select,
            some (sf.options.filterMap ghOptionKeep), true⟩ : RequiredInput)
          ∈ detectUnfilledRequiredFields p)
    ∧ (∀ (sf : SelectField), selectAtPlaceholder sf = true → selectGateRequired sf = true →
        detectUnfilledRequiredFields ⟨[sf], [], []⟩ = [gateEntryOfSelect sf]
        ∧ (detectUnfilledRequiredFields ⟨[sf], [], []⟩).length = 1) := by
  refine ⟨?_, ?_, ?_⟩
  · intro env hform hgate
    have hmain : ghApply false env
        = (⟨.needs_input, env.fillCount + (if env.resumeUploaded then 1 else 0),
             env.fillFailed, env.formShot.toList ++ env.preShot.toList, none,
             some ("Application requires answers to "
               ++ toString (detectUnfilledRequiredFields env.gatePage).length
               ++ " custom question(s)"),
             none, some (detectUnfilledRequiredFields env.gatePage)⟩,
           [GhStep.navigate, GhStep.fillFields, GhStep.uploadResumeStep,
             GhStep.coverLetterStep, GhStep.gateCheck]) := by
      unfold ghApply
      rw [if_neg (by simp [hform]), if_neg (by simp), if_pos hgate]
    rw [hmain]
    refine ⟨rfl, rfl, ?_⟩
    show GhStep.submitClick ∉ [GhStep.navigate, GhStep.fillFields,
      GhStep.uploadResumeStep, GhStep.coverLetterStep, GhStep.gateCheck]
    decide
  · intro sf h1 h2 p hmem
    apply List.mem_append_left
    apply List.mem_append_left
    apply List.mem_filterMap.mpr
    refine ⟨sf, hmem, ?_⟩
    have hcond : (selectAtPlaceholder sf && selectGateRequired sf) = true := by
      simp [h1, h2]
    simp [hcond, gateEntryOfSelect]
  · intro sf h1 h2
    have hcond : (selectAtPlaceholder sf && selectGateRequired sf) = true := by
      simp [h1, h2]
    constructor
    · unfold detectUnfilledRequiredFields
      simp [List.filterMap_cons, hcond, h1, h2]
    · unfold detectUnfilledRequiredFields
      simp [List.filterMap_cons, hcond, h1, h2]

/-- Witness for the amended C1 theorem at the concrete one-select form: exactly
one RequiredInput whose options exclude the placeholder, and no submit click. -/
theorem ghApply_needs_input_gate_witness :
    (ghApply false ghGateEnv).1.status = ApplyStatus.needs_input
    ∧ (ghApply false ghGateEnv).1.requiredInputs
        = some (detectUnfilledRequiredFields sampleGatePage)
    ∧ GhStep.submitClick ∉ (ghApply false ghGateEnv).2
    ∧ (detectUnfilledRequiredFields ⟨[sampleRequiredSelect], [], []⟩).length = 1 :=
  ⟨(ghApply_needs_input_gate.1 ghGateEnv rfl (by decide)).1,
   (ghApply_needs_input_gate.1 ghGateEnv rfl (by decide)).2.1,
   (ghApply_needs_input_gate.1 ghGateEnv rfl (by decide)).2.2,
   (ghApply_needs_input_gate.2.2 sampleRequiredSelect (by decide) (by decide)).2⟩

/-- C10: with dryRun set and the form found, GreenhouseAdapter.apply returns
dry_run_complete before the pre-submit gate: it never returns needs_input, the
gate never runs, and the submit control is never clicked, even when required
fields are still at their placeholder state. -/
theorem ghApply_dryRun_precedes_gate (env : GhRunEnv) (h : env.formFound = true) :
    (ghApply true env).1.status = ApplyStatus.dry_run_complete
    ∧ (ghApply true env).1.status ≠ ApplyStatus.needs_input
    ∧ GhStep.submitClick ∉ (ghApply true env).2
    ∧ GhStep.gateCheck ∉ (ghApply true env).2 := by
  have hmain : ghApply true env
      = (⟨.dry_run_complete, env.fillCount + (if env.resumeUploaded then 1 else 0),
           env.fillFailed, env.formShot.toList ++ env.preShot.toList, none, none,
           some "Dry run completed - form filled but not submitted", none⟩,
         [GhStep.navigate, GhStep.fillFields, GhStep.uploadResumeStep,
           GhStep.coverLetterStep]) := by
    unfold ghApply
    rw [if_neg (by simp [h]), if_pos rfl]
  rw [hmain]
  refine ⟨rfl, ?_, ?_, ?_⟩
  · show ApplyStatus.dry_run_complete ≠ ApplyStatus.needs_input
    decide
  · show GhStep.submitClick ∉ [GhStep.navigate, GhStep.fillFields,
      GhStep.uploadResumeStep, GhStep.coverLetterStep]
    decide
  · show GhStep.gateCheck ∉ [GhStep.navigate, GhStep.fillFields,
      GhStep.uploadResumeStep, GhStep.coverLetterStep]
    decide

/-- Witness for C10 at a dry run over the form that still has an unresolved
required select. -/
theorem ghApply_dryRun_precedes_gate_witness :
    (ghApply true ghGateEnv).1.status = ApplyStatus.dry_run_complete
    ∧ (ghApply true ghGateEnv).1.status ≠ ApplyStatus.needs_input
    ∧ GhStep.submitClick ∉ (ghApply true ghGateEnv).2
    ∧ GhStep.gateCheck ∉ (ghApply true ghGateEnv).2 :=
  ghApply_dryRun_precedes_gate ghGateEnv rfl

/-! ### Adapter registry and orchestrator (runner/applyJob.ts) -/

/-- GreenhouseAdapter.supports: host-based matching (the second pattern is
subsumed by the first but kept as in the source); URL parse failure yields
false. -/
def greenhouseSupports (url : String) : Bool :=
  match parseUrl url with
  | none => false
  | some u =>
    strContainsSub (String.mk u.host) "greenhouse.io"
      || strContainsSub (String.mk u.host) "boards.eu.greenhouse.io"

/-- LeverAdapter.supports. -/
def leverSupports (url : String) : Bool :=
  match parseUrl url with
  | none => false
  | some u =>
    strContainsSub (String.mk u.host) "lever.co"
      || strContainsSub (String.mk u.host) "jobs.lever.co"

structure AdapterSpec where
  name : String
  supportsUrl : String → Bool

/-- The adapter registry, applyJob.ts lines 26-29. -/
def adapters : List AdapterSpec :=
  [⟨"Greenhouse", greenhouseSupports⟩, ⟨"Lever", leverSupports⟩]

/-- The input record of applyJob (applyJob.ts lines 31-39). -/
structure ApplyJobInput where
  runId : String
  userId : String
  jobUrl : String
  atsType : String
  resumeStoragePath : String
  profile : ProfileData
  dryRun : Bool

/-- The observable side effects of one applyJob invocation, in order. -/
inductive JobEffect
  | recordRunStart
  | recordRunComplete (status : String)
  | rateWait
  | createCollector
  | downloadResumeStep
  | createContextStep
  | createPageStep
  | gotoJobUrl
  | blockingCheck
  | adapterApplyStep (name : String)
  | uploadArtifactsStep
  | cleanup
deriving Repr, DecidableEq

/-- The environment of one applyJob invocation: configuration flags and the
outcomes of the blocking-condition probes and of the adapter call. -/
structure OrchestratorEnv where
  enableArtifacts : Bool
  uploadArts : Bool
  globalDryRun : Bool
  usingBrowserbase : Bool
  blocking1 : Option ClassifiedError
  blocking2 : Option ClassifiedError
  adapterOutcome : Except JsError ApplyResult

def statusStr : ApplyStatus → String
  | .succeeded => "succeeded"
  | .failed => "failed"
  | .blocked => "blocked"
  | .dry_run_complete => "dry_run_complete"
  | .needs_input => "needs_input"

/-- The tail of applyJob after the blocking gate: run the adapter, upload
artifacts, record completion, clean up (applyJob.ts lines 142-227). -/
def applyJobContinue (env : OrchestratorEnv) (adapter : AdapterSpec)
    (pre : List JobEffect) : ApplyResult × List JobEffect :=
  match env.adapterOutcome with
  | Except.ok r =>
    (r, pre ++ [JobEffect.adapterApplyStep adapter.name]
      ++ (if env.enableArtifacts && env.uploadArts then [JobEffect.uploadArtifactsStep]
          else [])
      ++ [JobEffect.recordRunComplete (statusStr r.status), JobEffect.cleanup])
  | Except.error e =>
    (⟨.failed, 0, [], [], some (classifyError e).code, some (classifyError e).message,
       none, none⟩,
     pre ++ [JobEffect.adapterApplyStep adapter.name, JobEffect.recordRunComplete "failed",
       JobEffect.cleanup])

/-- applyJob, applyJob.ts lines 41-228: adapter resolution by URL first; with no
adapter the function returns failed/UNSUPPORTED_ATS immediately, before the rate
limiter, the resume download and any browser work. -/
def applyJobModel (input : ApplyJobInput) (env : OrchestratorEnv) :
    ApplyResult × List JobEffect :=
  match adapters.find? (fun a => a.supportsUrl input.jobUrl) with
  | none =>
    (⟨.failed, 0, [], [], some "UNSUPPORTED_ATS",
       some ("No adapter found for URL: " ++ input.jobUrl), none, none⟩,
     [JobEffect.recordRunStart, JobEffect.recordRunComplete "failed"])
  | some adapter =>
    match env.blocking1 with
    | some b =>
      if env.usingBrowserbase && b.code == "CAPTCHA_DETECTED" then
        applyJobContinue env adapter
          ([JobEffect.recordRunStart, JobEffect.rateWait]
            ++ (if env.enableArtifacts then [JobEffect.createCollector] else [])
            ++ [JobEffect.downloadResumeStep, JobEffect.createContextStep,
                JobEffect.createPageStep, JobEffect.gotoJobUrl, JobEffect.blockingCheck,
                JobEffect.blockingCheck])
      else
        (⟨.blocked, 0, [], [], some b.code, some b.message, none, none⟩,
         [JobEffect.recordRunStart, JobEffect.rateWait]
           ++ (if env.enableArtifacts then [JobEffect.createCollector] else [])
           ++ [JobEffect.downloadResumeStep, JobEffect.createContextStep,
               JobEffect.createPageStep, JobEffect.gotoJobUrl, JobEffect.blockingCheck]
           ++ (if env.enableArtifacts && env.uploadArts then [JobEffect.uploadArtifactsStep]
               else [])
           ++ [JobEffect.recordRunComplete "blocked", JobEffect.cleanup])
    | none =>
      applyJobContinue env adapter
        ([JobEffect.recordRunStart, JobEffect.rateWait]
          ++ (if env.enableArtifacts then [JobEffect.createCollector] else [])
          ++ [JobEffect.downloadResumeStep, JobEffect.createContextStep,
              JobEffect.createPageStep, JobEffect.gotoJobUrl, JobEffect.blockingCheck])

/-- C9: when no registered adapter supports the job URL, applyJob returns failed
with UNSUPPORTED_ATS, zero fields filled, empty fieldsFailed, and performs only
the run-start and failed-completion bookkeeping: in particular no browser
context and no page are ever created. -/
theorem applyJob_unsupported (input : ApplyJobInput) (env : OrchestratorEnv)
    (h : ∀ a ∈ adapters, a.supportsUrl input.jobUrl = false) :
    applyJobModel input env
      = (⟨.failed, 0, [], [], some "UNSUPPORTED_ATS",
           some ("No adapter found for URL: " ++ input.jobUrl), none, none⟩,
         [JobEffect.recordRunStart, JobEffect.recordRunComplete "failed"])
    ∧ JobEffect.createContextStep ∉ (applyJobModel input env).2
    ∧ JobEffect.createPageStep ∉ (applyJobModel input env).2
    ∧ JobEffect.rateWait ∉ (applyJobModel input env).2 := by
  have hf : adapters.find? (fun a => a.supportsUrl input.jobUrl) = none := by
    rw [List.find?_eq_none]
    intro a ha
    simp [h a ha]
  have hmain : applyJobModel input env
      = (⟨.failed, 0, [], [], some "UNSUPPORTED_ATS",
           some ("No adapter found for URL: " ++ input.jobUrl), none, none⟩,
         [JobEffect.recordRunStart, JobEffect.recordRunComplete "failed"]) := by
    unfold applyJobModel
    rw [hf]
  refine ⟨hmain, ?_, ?_, ?_⟩
  · rw [hmain]
    show JobEffect.createContextStep
      ∉ [JobEffect.recordRunStart, JobEffect.recordRunComplete "failed"]
    decide
  · rw [hmain]
    show JobEffect.createPageStep
      ∉ [JobEffect.recordRunStart, JobEffect.recordRunComplete "failed"]
    decide
  · rw [hmain]
    show JobEffect.rateWait
      ∉ [JobEffect.recordRunStart, JobEffect.recordRunComplete "failed"]
    decide

/-- A sample result for environments whose adapter outcome is irrelevant. -/
def idleEnv : OrchestratorEnv :=
  ⟨false, false, false, false, none, none,
    Except.ok ⟨ApplyStatus.succeeded, 0, [], [], none, none, none, none⟩⟩

/-- Witness for C9 at a URL on an unsupported applicant-tracking host. -/
theorem applyJob_unsupported_witness :
    applyJobModel ⟨"r1", "u1", "https://careers.example.com/jobs/1", "unknown",
        "resumes/r.pdf", emptyProfile, false⟩ idleEnv
      = (⟨ApplyStatus.failed, 0, [], [], some "UNSUPPORTED_ATS",
           some ("No adapter found for URL: " ++ "https://careers.example.com/jobs/1"),
           none, none⟩,
         [JobEffect.recordRunStart, JobEffect.recordRunComplete "failed"]) :=
  (applyJob_unsupported ⟨"r1", "u1", "https://careers.example.com/jobs/1", "unknown",
      "resumes/r.pdf", emptyProfile, false⟩ idleEnv (by decide)).1

/-! ### Task runner persistence (runner.ts: claimRun, processRun, failRun) -/

/-- run_status enum (including the migrated needs_input value). -/
inductive RunStatus
  | queued | running | succeeded | failed | needs_input | retryable
deriving Repr, DecidableEq

/-- job_status enum (including the migrated needs_input value). -/
inductive JobStatus
  | new | queued | applying | applied | failed | blocked | needs_input
deriving Repr, DecidableEq

/-- The persisted fields of one application_runs row that the runner touches. -/
structure TaskState where
  status : RunStatus
  started_at : Option Nat
  finished_at : Option Nat
  error_code : Option String
  error_message : Option String
  required_inputs : List RequiredInput
deriving Repr, DecidableEq

/-- The database state the runner updates: the task row and its job target's
status. -/
structure WorldState where
  task : TaskState
  job : JobStatus
deriving Repr, DecidableEq

/-- The Run record loaded by the worker loop (runner.ts lines 262-270). -/
structure Run where
  id : Nat
  user_id : Nat
  job_target_id : Nat
  resume_id : Nat
  dry_run : Bool
deriving Repr, DecidableEq

/-- jsOr models `x || fallback` for nullable strings (empty strings are falsy). -/
def jsOr (o : Option String) (d : String) : String :=
  match o with
  | some s => if s = "" then d else s
  | none => d

/-- failRun, runner.ts lines 487-500. -/
def failRun (errorCode errorMessage : String) (now : Nat) (w : WorldState) : WorldState :=
  { w with
      task := { w.task with
        status := RunStatus.failed
        finished_at := some now
        error_code := some errorCode
        error_message := some errorMessage } }

/-- updateJobStatus, runner.ts lines 503-512. -/
def updateJobStatus (status : JobStatus) (w : WorldState) : WorldState :=
  { w with job := status }

/-- What the try block of processRun reaches before the catch or a final status
update: a missing dependent record, the legacy fail=true test trigger, an
applyJob result, or an unhandled exception raised at an arbitrary point, with
the database left in whatever intermediate state the already-executed updates
produced. -/
inductive TryOutcome
  | jobMissing
  | resumeMissing
  | profileMissing
  | testFailure
  | applied (result : ApplyResult)
  | raised (msg : String) (partialState : WorldState)
deriving Repr

/-- processRun, runner.ts lines 335-485: load records, run applyJob, persist the
status mapping; the catch branch (lines 476-484) forces failed/UNEXPECTED_ERROR
via failRun and sets the job target to failed, applied to whatever intermediate
state the exception left behind. -/
def processRun (run : Run) (outcome : TryOutcome) (now : Nat) (w : WorldState) : WorldState :=
  match outcome with
  | .jobMissing => failRun "JOB_NOT_FOUND" "Job target not found" now w
  | .resumeMissing => failRun "RESUME_NOT_FOUND" "Resume not found" now w
  | .profileMissing => failRun "PROFILE_NOT_FOUND" "Profile not found" now w
  | .testFailure =>
    updateJobStatus JobStatus.failed
      (failRun "TEST_FAILURE" "Intentional failure for testing" now w)
  | .applied result =>
    match result.status with
    | .succeeded | .dry_run_complete =>
      if run.dry_run then
        { w with
            task := { w.task with
              status := RunStatus.succeeded
              finished_at := some now } }
      else
        updateJobStatus JobStatus.applied
          { w with
              task := { w.task with
                status := RunStatus.succeeded
                finished_at := some now } }
    | .needs_input =>
      updateJobStatus JobStatus.needs_input
        { w with
            task := { w.task with
              status := RunStatus.needs_input
              finished_at := none
              error_code := some "NEEDS_INPUT"
              error_message := some (jsOr result.errorMessage
                "Waiting for user to answer custom questions")
              required_inputs := result.requiredInputs.getD [] } }
    | .blocked =>
      updateJobStatus JobStatus.blocked
        { w with
            task := { w.task with
              status := RunStatus.failed
              finished_at := some now
              error_code := some (jsOr result.errorCode "BLOCKED")
              error_message := some (jsOr result.errorMessage "Application blocked") } }
    | .failed =>
      updateJobStatus JobStatus.failed
        (failRun (jsOr result.errorCode "UNKNOWN")
          (jsOr result.errorMessage "Application failed") now w)
  | .raised msg partialState =>
    updateJobStatus JobStatus.failed
      (failRun "UNEXPECTED_ERROR" msg now partialState)

/-- C2: an unhandled exception anywhere in processRun reaches the catch branch,
which forces the task row to failed with non-null error code UNEXPECTED_ERROR
and a finished_at timestamp, and sets the job target to failed - regardless of
the intermediate state the exception left; in particular the task is never left
in running. -/
theorem processRun_exception_forces_failed (run : Run) (msg : String) (pw : WorldState)
    (now : Nat) (w : WorldState) :
    (processRun run (TryOutcome.raised msg pw) now w).task.status = RunStatus.failed
    ∧ (processRun run (TryOutcome.raised msg pw) now w).task.error_code
        = some "UNEXPECTED_ERROR"
    ∧ (processRun run (TryOutcome.raised msg pw) now w).task.finished_at = some now
    ∧ (processRun run (TryOutcome.raised msg pw) now w).task.status ≠ RunStatus.running
    ∧ (processRun run (TryOutcome.raised msg pw) now w).job = JobStatus.failed := by
  refine ⟨rfl, rfl, rfl, ?_, rfl⟩
  show RunStatus.failed ≠ RunStatus.running
  decide

/-- C3: the persistence mapping from the orchestrator's ApplyResult to the task
and job rows: succeeded and dry_run_complete persist task=succeeded with
finished_at set, job=applied unless the run is a dry run (whose job row is left
untouched); needs_input persists task=needs_input with finished_at null and the
result's requiredInputs copied, job=needs_input; blocked persists task=failed
with the result's (nonempty) error code, job=blocked; failed persists
task=failed, job=failed. -/
theorem processRun_result_mapping (run : Run) (result : ApplyResult) (now : Nat)
    (w : WorldState) :
    ((result.status = ApplyStatus.succeeded ∨ result.status = ApplyStatus.dry_run_complete) →
      (processRun run (TryOutcome.applied result) now w).task.status = RunStatus.succeeded
      ∧ (processRun run (TryOutcome.applied result) now w).task.finished_at = some now
      ∧ (run.dry_run = false →
          (processRun run (TryOutcome.applied result) now w).job = JobStatus.applied)
      ∧ (run.dry_run = true →
          (processRun run (TryOutcome.applied result) now w).job = w.job))
    ∧ (result.status = ApplyStatus.needs_input →
      (processRun run (TryOutcome.applied result) now w).task.status = RunStatus.needs_input
      ∧ (processRun run (TryOutcome.applied result) now w).task.finished_at = none
      ∧ (processRun run (TryOutcome.applied result) now w).task.required_inputs
          = result.requiredInputs.getD []
      ∧ (processRun run (TryOutcome.applied result) now w).job = JobStatus.needs_input)
    ∧ (result.status = ApplyStatus.blocked →
      (processRun run (TryOutcome.applied result) now w).task.status = RunStatus.failed
      ∧ (processRun run (TryOutcome.applied result) now w).task.finished_at = some now
      ∧ (∀ c, result.errorCode = some c → c ≠ "" →
          (processRun run (TryOutcome.applied result) now w).task.error_code = some c)
      ∧ (processRun run (TryOutcome.applied result) now w).job = JobStatus.blocked)
    ∧ (result.status = ApplyStatus.failed →
      (processRun run (TryOutcome.applied result) now w).task.status = RunStatus.failed
      ∧ (processRun run (TryOutcome.applied result) now w).job = JobStatus.failed) := by
  obtain ⟨rid, uid, jid, resid, dr⟩ := run
  obtain ⟨st, cnt, ff, ss, ec, em, cm, ri⟩ := result
  refine ⟨?_, ?_, ?_, ?_⟩
  · intro h
    have hst : st = ApplyStatus.succeeded ∨ st = ApplyStatus.dry_run_complete := h
    rcases hst with h1 | h1 <;> subst h1 <;>
      exact ⟨by cases dr <;> rfl, by cases dr <;> rfl,
        fun hdr => by subst hdr; rfl,
        fun hdr => by subst hdr; rfl⟩
  · intro h
    have hst : st = ApplyStatus.needs_input := h
    subst hst
    exact ⟨rfl, rfl, rfl, rfl⟩
  · intro h
    have hst : st = ApplyStatus.blocked := h
    subst hst
    refine ⟨rfl, rfl, ?_, rfl⟩
    intro c hc hcne
    have hec : ec = some c := hc
    show some (jsOr ec "BLOCKED") = some c
    rw [hec]
    show some (if c = "" then "BLOCKED" else c) = some c
    rw [if_neg hcne]
  · intro h
    have hst : st = ApplyStatus.failed := h
    subst hst
    exact ⟨rfl, rfl⟩

/-- A run, initial state and needs_input result used as concrete witnesses. -/
def wRun : Run := ⟨1, 1, 1, 1, false⟩

def w0 : WorldState :=
  ⟨⟨RunStatus.running, some 5, none, none, none, []⟩, JobStatus.applying⟩

def wNeedsResult : ApplyResult :=
  ⟨ApplyStatus.needs_input, 2, [], [], none, none, none,
    some [⟨"Question", FieldType.select, some ["A", "B"], true⟩]⟩

/-- Witness for C3 at a concrete needs_input result. -/
theorem processRun_result_mapping_witness :
    (processRun wRun (TryOutcome.applied wNeedsResult) 9 w0).task.status
        = RunStatus.needs_input
    ∧ (processRun wRun (TryOutcome.applied wNeedsResult) 9 w0).task.finished_at = none
    ∧ (processRun wRun (TryOutcome.applied wNeedsResult) 9 w0).task.required_inputs
        = wNeedsResult.requiredInputs.getD []
    ∧ (processRun wRun (TryOutcome.applied wNeedsResult) 9 w0).job = JobStatus.needs_input :=
  (processRun_result_mapping wRun wNeedsResult 9 w0).2.1 rfl

/-! ### Atomic claiming (claimRun, runner.ts lines 295-332) -/

/-- One row of application_runs as the claim path sees it. -/
structure TaskRow where
  id : Nat
  status : RunStatus
  started_at : Option Nat
deriving Repr, DecidableEq

/-- The conditional update of claimRun:
`update({status:'running', started_at:now}).eq('id', id).eq('status', 'queued')`.
Returns the new table and whether a row was claimed (the guard matched). -/
def casClaim (store : List TaskRow) (id : Nat) (now : Nat) : List TaskRow × Bool :=
  (store.map (fun t =>
      if t.id = id ∧ t.status = RunStatus.queued then
        { t with status := RunStatus.running, started_at := some now } else t),
   store.any (fun t => t.id == id && t.status == RunStatus.queued))

/-- claimRun: select one queued run from the fetch-time snapshot, then perform
the guarded update against the (possibly newer) table; a failed guard returns
none rather than raising. -/
def claimRunModel (fetchStore casStore : List TaskRow) (now : Nat) :
    List TaskRow × Option Nat :=
  match fetchStore.find? (fun t => t.status == RunStatus.queued) with
  | none => (casStore, none)
  | some run =>
    let p := casClaim casStore run.id now
    (p.1, if p.2 then some run.id else none)

/-- A sequence of claim attempts for the same task id at the given times,
counting how many succeed. -/
def runClaims (store : List TaskRow) (id : Nat) : List Nat → List TaskRow × Nat
  | [] => (store, 0)
  | t :: ts =>
    let p := casClaim store id t
    let q := runClaims p.1 id ts
    (q.1, (if p.2 then 1 else 0) + q.2)

theorem casClaim_not_queued (store : List TaskRow) (id now : Nat) :
    ∀ t ∈ (casClaim store id now).1, t.id = id → t.status ≠ RunStatus.queued := by
  intro t ht hid
  unfold casClaim at ht
  simp only [List.mem_map] at ht
  obtain ⟨t0, ht0, hmap⟩ := ht
  by_cases hc : t0.id = id ∧ t0.status = RunStatus.queued
  · rw [if_pos hc] at hmap
    rw [← hmap]
    show RunStatus.running ≠ RunStatus.queued
    decide
  · rw [if_neg hc] at hmap
    subst hmap
    intro hq
    exact hc ⟨hid, hq⟩

theorem casClaim_false_of_not_queued (store : List TaskRow) (id now : Nat)
    (h : ∀ t ∈ store, t.id = id → t.status ≠ RunStatus.queued) :
    (casClaim store id now).2 = false := by
  unfold casClaim
  simp only
  rw [List.any_eq_false]
  intro t ht
  simp only [Bool.and_eq_true, beq_iff_eq]
  intro hcon
  exact h t ht hcon.1 hcon.2

theorem runClaims_zero_of_not_queued (id : Nat) :
    ∀ (times : List Nat) (store : List TaskRow),
      (∀ t ∈ store, t.id = id → t.status ≠ RunStatus.queued) →
      (runClaims store id times).2 = 0 := by
  intro times
  induction times with
  | nil => intro store h; rfl
  | cons t ts ih =>
    intro store h
    have hfalse := casClaim_false_of_not_queued store id t h
    have hnext := ih (casClaim store id t).1 (casClaim_not_queued store id t)
    show (if (casClaim store id t).2 = true then 1 else 0)
      + (runClaims (casClaim store id t).1 id ts).2 = 0
    rw [hfalse, hnext]
    decide

/-- C5: the claim guard makes claiming exclusive: over any sequence of
compare-and-swap claim attempts for one task, at most one succeeds; a claim
whose guard fails because the task is no longer queued returns none instead of
raising; and the update only ever turns a still-queued row into running (other
rows are untouched). -/
theorem claimRun_cas_props :
    (∀ (store : List TaskRow) (id : Nat) (times : List Nat),
      (runClaims store id times).2 ≤ 1)
    ∧ (∀ (fetchStore casStore : List TaskRow) (now : Nat) (r : TaskRow),
        fetchStore.find? (fun t => t.status == RunStatus.queued) = some r →
        (∀ t ∈ casStore, t.id = r.id → t.status ≠ RunStatus.queued) →
        (claimRunModel fetchStore casStore now).2 = none)
    ∧ (∀ (store : List TaskRow) (id now : Nat) (t : TaskRow),
        t ∈ (casClaim store id now).1 →
        t ∈ store
        ∨ ∃ t0, t0 ∈ store ∧ t0.id = id ∧ t0.status = RunStatus.queued
            ∧ t = { t0 with status := RunStatus.running, started_at := some now }) := by
  refine ⟨?_, ?_, ?_⟩
  · intro store id times
    induction times generalizing store with
    | nil => exact Nat.zero_le 1
    | cons t ts ih =>
      show (if (casClaim store id t).2 = true then 1 else 0)
        + (runClaims (casClaim store id t).1 id ts).2 ≤ 1
      cases hd : (casClaim store id t).2 with
      | true =>
        have hz := runClaims_zero_of_not_queued id ts (casClaim store id t).1
          (casClaim_not_queued store id t)
        have h1 : (if true = true then (1 : Nat) else 0) = 1 := rfl
        rw [hz, h1]
      | false =>
        have h1 : (if false = true then (1 : Nat) else 0) = 0 := rfl
        rw [h1]
        have hle := ih (casClaim store id t).1
        omega
  · intro fetchStore casStore now r hfind hgone
    have hfalse := casClaim_false_of_not_queued casStore r.id now hgone
    unfold claimRunModel
    rw [hfind]
    show (if (casClaim casStore r.id now).2 = true then some r.id else none) = none
    have h1 : (if false = true then some r.id else none) = (none : Option Nat) := rfl
    rw [hfalse, h1]
  · intro store id now t ht
    unfold casClaim at ht
    simp only [List.mem_map] at ht
    obtain ⟨t0, ht0, hmap⟩ := ht
    by_cases hc : t0.id = id ∧ t0.status = RunStatus.queued
    · right
      rw [if_pos hc] at hmap
      exact ⟨t0, ht0, hc.1, hc.2, hmap.symm⟩
    · left
      rw [if_neg hc] at hmap
      rw [← hmap]
      exact ht0

/-- Witness for C5: with the single row already claimed by another worker, the
guarded claim returns none; and two successive claim attempts on a queued row
succeed exactly once. -/
theorem claimRun_cas_props_witness :
    (claimRunModel [⟨1, RunStatus.queued, none⟩] [⟨1, RunStatus.running, some 3⟩] 7).2 = none
    ∧ (runClaims [⟨1, RunStatus.queued, none⟩] 1 [4, 5]).2 ≤ 1 :=
  ⟨claimRun_cas_props.2.1 [⟨1, RunStatus.queued, none⟩] [⟨1, RunStatus.running, some 3⟩]
      7 ⟨1, RunStatus.queued, none⟩ (by decide) (by decide),
    claimRun_cas_props.1 [⟨1, RunStatus.queued, none⟩] 1 [4, 5]⟩

end ApplyModel
